import Mathlib

/-!
# dapp: initialization phase, git-patch stages, diff parser and Ansible builder

A shallow embedding of

* `pkg/build/initialization_phase.go` (image selection, build order, stage lists,
  remote clone paths, the remote-repository cache),
* `pkg/build/stage/ga_post_setup_patch.go` (dependencies of the post-setup patch stage),
* `pkg/build/stage/user_with_ga_patch.go` (preparing the image of a user stage),
* `pkg/git/diff_parser.go` (the excerpt on file mode changes), and
* `pkg/build/builder/ansible.go` (stage checksums and empty stages),

followed by theorems about them.

Conventions.

* A Go result `(T, error)` is a pair `T × Option GoError`; `none` is the `nil` error.
* A Go `int64` is an `Int` kept in range by `wrap64`.
* A Go function that can panic returns an `Option`; `none` is the panic.
* Packages that the embedded files call but that are not part of them (the Go standard
  library, `git_repo`, `slug`, the constructors of package `stage`, the configuration
  loader) are passed in as records of functions.
-/

namespace Dapp

/-! ## Errors -/

/-- A Go `error` value, identified by the text its `Error()` method returns. -/
structure GoError where
  msg : String
  deriving DecidableEq, Repr

/-! ## Configuration (`pkg/config`), as far as the build package reads it -/

/-- The struct `config.StageDependencies`. -/
structure StageDependencies where
  Install : List String
  BeforeSetup : List String
  Setup : List String
  deriving DecidableEq, Repr

/-- The struct `config.GitLocalExport`; `StageDependencies` is a nullable pointer. -/
structure GitLocalExport where
  Add : String
  To : String
  ExcludePaths : List String
  IncludePaths : List String
  Owner : String
  Group : String
  StageDependencies : Option StageDependencies
  deriving DecidableEq, Repr

/-- The struct `config.GitLocal`. -/
structure GitLocal where
  GitLocalExport : GitLocalExport
  As : String
  deriving DecidableEq, Repr

/-- The struct `config.GitRemote`. -/
structure GitRemote where
  GitLocalExport : GitLocalExport
  Branch : String
  Commit : String
  Tag : String
  Name : String
  Url : String
  deriving DecidableEq, Repr

/-- The struct behind `DimgBase.Git`. -/
structure GitManager where
  Local : List GitLocal
  Remote : List GitRemote
  deriving DecidableEq, Repr

mutual
/-- The struct `config.DimgBase`. `Rest` stands for the fields that the build package hands
on to package `stage` without reading them (mounts, shell and ansible sections, imports). -/
inductive DimgBase where
  | mk (Name : String) (From : String) (FromDimg : DimgPtr) (FromDimgArtifact : DimgArtifactPtr)
      (Git : GitManager) (Mount : List String) (Rest : String)
  deriving DecidableEq
/-- The struct `config.Dimg`: an embedded `*DimgBase` and the docker section. -/
inductive Dimg where
  | mk (DimgBase : DimgBase) (Docker : List String)
  deriving DecidableEq
/-- The struct `config.DimgArtifact`: an embedded `*DimgBase`. -/
inductive DimgArtifact where
  | mk (DimgBase : DimgBase)
  deriving DecidableEq
/-- A value of type `*config.Dimg`. -/
inductive DimgPtr where
  | nil
  | ptr (d : Dimg)
  deriving DecidableEq
/-- A value of type `*config.DimgArtifact`. -/
inductive DimgArtifactPtr where
  | nil
  | ptr (d : DimgArtifact)
  deriving DecidableEq
end

/-- A non-nil value of the interface `config.DimgInterface`: its dynamic type is
`*config.Dimg` or `*config.DimgArtifact`. Equality of two such values is
`reflect.DeepEqual`: same dynamic type and deeply equal pointees. -/
inductive DimgInterface where
  | dimg (d : Dimg)
  | dimgArtifact (d : DimgArtifact)
  deriving DecidableEq

namespace DimgBase

/-- Field `Name`. -/
def Name : DimgBase → String
  | mk n _ _ _ _ _ _ => n

/-- Field `From`. -/
def From : DimgBase → String
  | mk _ f _ _ _ _ _ => f

/-- Field `FromDimg`. -/
def FromDimg : DimgBase → DimgPtr
  | mk _ _ d _ _ _ _ => d

/-- Field `FromDimgArtifact`. -/
def FromDimgArtifact : DimgBase → DimgArtifactPtr
  | mk _ _ _ a _ _ _ => a

/-- Field `Git`. -/
def Git : DimgBase → GitManager
  | mk _ _ _ _ g _ _ => g

/-- Field `Mount`. -/
def Mount : DimgBase → List String
  | mk _ _ _ _ _ m _ => m

end DimgBase

/-- The embedded `*DimgBase` of a `config.Dimg`. -/
def Dimg.DimgBase : Dimg → DimgBase
  | mk b _ => b

/-- The promoted field `Name` of a `config.Dimg`. -/
def Dimg.Name (d : Dimg) : String := d.DimgBase.Name

/-- The embedded `*DimgBase` of a `config.DimgArtifact`. -/
def DimgArtifact.DimgBase : DimgArtifact → DimgBase
  | mk b => b

/-! ## Git repositories and git artifacts -/

/-- The struct `git_repo.Remote` (`Base.Name`, `Url`, `ClonePath`). -/
structure Remote where
  Name : String
  Url : String
  ClonePath : String
  deriving DecidableEq, Repr

/-- The struct `git_repo.Local` (`Base.Name`, `Path`, `GitDir`). -/
structure LocalRepo where
  Name : String
  Path : String
  GitDir : String
  deriving DecidableEq, Repr

/-- A value of the interface held in `GitArtifact.GitRepoInterface`. -/
inductive GitRepo where
  | nilLocal
  | localRepo (r : LocalRepo)
  | remoteRepo (r : Remote)
  deriving DecidableEq, Repr

/-- The names of package `stage`, in the order of the spec. -/
inductive StageName where
  | From
  | BeforeInstall
  | ArtifactImportBeforeInstall
  | GAArchive
  | Install
  | ArtifactImportAfterInstall
  | BeforeSetup
  | ArtifactImportBeforeSetup
  | Setup
  | ArtifactImportAfterSetup
  | GAPostSetupPatch
  | GALatestPatch
  | DockerInstructions
  deriving DecidableEq, Repr

/-- The struct `stage.GitArtifact`, with the fields the initialization phase sets. -/
structure GitArtifact where
  PatchesDir : String
  ContainerPatchesDir : String
  ArchivesDir : String
  ContainerArchivesDir : String
  RepoPath : String
  Cwd : String
  To : String
  ExcludePaths : List String
  IncludePaths : List String
  Owner : String
  Group : String
  StagesDependencies : Option (List (StageName × List String))
  Tag : String
  Commit : String
  Branch : String
  As : String
  Name : String
  GitRepoInterface : GitRepo
  deriving DecidableEq, Repr

/-- Method `GitArtifact.GitRepo()`. -/
def GitArtifact.GitRepo (ga : GitArtifact) : GitRepo := ga.GitRepoInterface

/-- A built image, as far as the stages read it: its labels. -/
structure Image where
  Labels : List (String × String)
  deriving DecidableEq, Repr

/-! ## Stages -/

/-- The struct `stage.NewBaseStageOptions`. -/
structure NewBaseStageOptions where
  DimgName : String
  ConfigMounts : List String
  DimgTmpDir : String
  ContainerDappDir : String
  ProjectBuildDir : String
  deriving DecidableEq, Repr

/-- The struct `stage.NewGAArchiveStageOptions`. -/
structure NewGAArchiveStageOptions where
  ArchivesDir : String
  ContainerArchivesDir : String
  deriving DecidableEq, Repr

/-- The struct `stage.NewGaPatchStageOptions`. -/
structure NewGaPatchStageOptions where
  PatchesDir : String
  ContainerPatchesDir : String
  deriving DecidableEq, Repr

/-- A non-nil `stage.Interface` value: its name, the options it was built from and the git
artifacts bound to it by `SetGitArtifacts`. -/
structure Stage where
  Name : StageName
  baseStageOptions : NewBaseStageOptions
  gaArchiveStageOptions : Option NewGAArchiveStageOptions
  gaPatchStageOptions : Option NewGaPatchStageOptions
  gitArtifacts : List GitArtifact
  deriving DecidableEq, Repr

/-- Method `SetGitArtifacts` of every stage. -/
def Stage.SetGitArtifacts (s : Stage) (gitArtifacts : List GitArtifact) : Stage :=
  { s with gitArtifacts := gitArtifacts }

/-! ## The conveyor and the outside world -/

/-- The struct `build.Conveyor`, with the fields the initialization phase reads or writes.
The Go map `remoteGitRepos` is an association list read with `List.lookup`. -/
structure Conveyor where
  dimgNamesToProcess : List String
  remoteGitRepos : List (String × Remote)
  projectDir : String
  projectBuildDir : String
  tmpDir : String
  containerDappDir : String
  deriving DecidableEq, Repr

/-- What a run does to the outside world, in order. -/
inductive Event where
  | warning (text : String)
  | printed (text : String)
  | cloneAndFetch (repo : Remote)
  | isCommitExists (ga : GitArtifact) (commit : String)
  | patchSize (ga : GitArtifact) (commit : String)
  deriving DecidableEq, Repr

/-- The parsed URL returned by `url.Parse`, as far as it is read. -/
structure URL where
  Scheme : String
  deriving DecidableEq, Repr

deriving instance DecidableEq for Except

/-- The functions of other packages that the embedded code calls. -/
structure Ext where
  /-- Go `net/url`: `url.Parse`. -/
  urlParse : String → Except GoError URL
  /-- Go `path`: `path.Join`. -/
  pathJoin : List String → String
  /-- Package `slug`: `slug.Slug`. -/
  Slug : String → String
  /-- The text of `fmt.Sprintf("%v", git_repo.RemoteGitRepoCacheVersion)`. -/
  RemoteGitRepoCacheVersion : String
  /-- Method `Conveyor.GetDimgTmpDir`. -/
  GetDimgTmpDir : Conveyor → String → String
  /-- Method `Remote.CloneAndFetch`. -/
  CloneAndFetch : Remote → Option GoError
  /-- Method `GitArtifact.IsEmpty`. -/
  IsEmpty : GitArtifact → Bool × Option GoError
  /-- Method `GitArtifact.LatestCommit`. -/
  LatestCommit : GitArtifact → String × Option GoError
  /-- Method `String` of a git repository. -/
  repoString : GitRepo → String
  /-- Method `GitArtifact.GetGACommitFromImageLabels`. -/
  GetGACommitFromImageLabels : GitArtifact → Image → String
  /-- Method `IsCommitExists` of a git repository. -/
  IsCommitExists : GitRepo → String → Bool × Option GoError
  /-- Method `GitArtifact.PatchSize`. -/
  PatchSize : GitArtifact → String → Int × Option GoError
  /-- Function `util.Sha256Hash`. -/
  Sha256Hash : List String → String
  /-- Method `DimgTree` of `*config.Dimg`. -/
  DimgTree : Dimg → List DimgInterface

/-- Modelled from the spec: the constructors of package `stage` that may return nil
(`GenerateFromStage`, `GenerateBeforeInstallStage`, ...), which are not part of the embedded
files. Each field tells whether the constructor returns a stage for the configuration; the
stage it returns bears the name that the spec's fixed stage order and the comment above its
call in `generateStages` give it. -/
structure StagePkg where
  hasFrom : DimgBase → Bool
  hasBeforeInstall : DimgBase → Bool
  hasArtifactImportBeforeInstall : DimgBase → Bool
  hasInstall : DimgBase → Bool
  hasArtifactImportAfterInstall : DimgBase → Bool
  hasBeforeSetup : DimgBase → Bool
  hasArtifactImportBeforeSetup : DimgBase → Bool
  hasSetup : DimgBase → Bool
  hasArtifactImportAfterSetup : DimgBase → Bool
  hasDockerInstructions : Dimg → Bool

/-! ## `pkg/build/initialization_phase.go` -/

/-- Go `processDimgConfig`: the base configuration, its name, and whether the value is a
`*config.DimgArtifact`. -/
def processDimgConfig (dimgConfig : DimgInterface) : DimgBase × String × Bool :=
  match dimgConfig with
  | .dimg d => (d.DimgBase, d.DimgBase.Name, false)
  | .dimgArtifact d => (d.DimgBase, d.DimgBase.Name, true)

/-- Go `getDimgPatchesDir`. -/
def getDimgPatchesDir (x : Ext) (dimgName : String) (c : Conveyor) : String :=
  x.pathJoin [c.tmpDir, dimgName, "patch"]

/-- Go `getDimgPatchesContainerDir`. -/
def getDimgPatchesContainerDir (x : Ext) (c : Conveyor) : String :=
  x.pathJoin [c.containerDappDir, "patch"]

/-- Go `getDimgArchivesDir`. -/
def getDimgArchivesDir (x : Ext) (dimgName : String) (c : Conveyor) : String :=
  x.pathJoin [c.tmpDir, dimgName, "archive"]

/-- Go `getDimgArchivesContainerDir`. -/
def getDimgArchivesContainerDir (x : Ext) (c : Conveyor) : String :=
  x.pathJoin [c.containerDappDir, "archive"]

/-- Go `stageDependenciesToMap`. -/
def stageDependenciesToMap (sd : StageDependencies) : List (StageName × List String) :=
  [(StageName.Install, sd.Install), (StageName.BeforeSetup, sd.BeforeSetup),
    (StageName.Setup, sd.Setup)]

/-- Go `baseGitArtifactInit`. The fields it leaves at their zero value are empty here. -/
def baseGitArtifactInit (x : Ext) (loc : GitLocalExport) (dimgName : String) (c : Conveyor) :
    GitArtifact :=
  let stageDependencies : Option (List (StageName × List String)) :=
    match loc.StageDependencies with
    | some sd => some (stageDependenciesToMap sd)
    | none => none
  { PatchesDir := getDimgPatchesDir x dimgName c
    ContainerPatchesDir := getDimgPatchesContainerDir x c
    ArchivesDir := getDimgArchivesDir x dimgName c
    ContainerArchivesDir := getDimgArchivesContainerDir x c
    RepoPath := x.pathJoin ["/", loc.Add]
    Cwd := loc.Add
    To := loc.To
    ExcludePaths := loc.ExcludePaths
    IncludePaths := loc.IncludePaths
    Owner := loc.Owner
    Group := loc.Group
    StagesDependencies := stageDependencies
    Tag := ""
    Commit := ""
    Branch := ""
    As := ""
    Name := ""
    GitRepoInterface := GitRepo.nilLocal }

/-- Go `gitRemoteArtifactInit`. -/
def gitRemoteArtifactInit (x : Ext) (remoteGAConfig : GitRemote) (remoteGitRepo : Remote)
    (dimgName : String) (c : Conveyor) : GitArtifact :=
  let ga := baseGitArtifactInit x remoteGAConfig.GitLocalExport dimgName c
  { ga with
    Tag := remoteGAConfig.Tag
    Commit := remoteGAConfig.Commit
    Branch := remoteGAConfig.Branch
    Name := remoteGAConfig.Name
    GitRepoInterface := GitRepo.remoteRepo remoteGitRepo }

/-- Go `gitLocalArtifactInit`; `localGitRepo` is `none` for the nil pointer. -/
def gitLocalArtifactInit (x : Ext) (localGAConfig : GitLocal) (localGitRepo : Option LocalRepo)
    (dimgName : String) (c : Conveyor) : GitArtifact :=
  let ga := baseGitArtifactInit x localGAConfig.GitLocalExport dimgName c
  { ga with
    As := localGAConfig.As
    Name := "own"
    GitRepoInterface :=
      match localGitRepo with
      | some r => GitRepo.localRepo r
      | none => GitRepo.nilLocal }

/-- Go `strings.HasPrefix`: whether `s` begins with `start`. -/
def stringsHasStart (s start : String) : Bool := start.data.isPrefixOf s.data

/-- Go `strings.HasSuffix`: whether `s` ends with `ending`. -/
def stringsHasEnding (s ending : String) : Bool := ending.data.isSuffixOf s.data

/-- Go `urlScheme`. -/
def urlScheme (x : Ext) (urlString : String) : String × Option GoError :=
  match x.urlParse urlString with
  | .error err =>
    if stringsHasEnding err.msg "first path segment in URL cannot contain colon" then
      if (["git", "ssh"].any fun protocol => stringsHasStart urlString (protocol ++ "@")) then
        ("ssh", none)
      else ("", some err)
    else ("", some err)
  | .ok u => (u.Scheme, none)

/-- Go `getRemoteGitRepoClonePath`. -/
def getRemoteGitRepoClonePath (x : Ext) (remoteGaConfig : GitRemote) (c : Conveyor) :
    String × Option GoError :=
  match urlScheme x remoteGaConfig.Url with
  | (_, some err) => ("", some err)
  | (scheme, none) =>
    let clonePath := x.pathJoin
      [c.projectBuildDir, "remote_git_repo", x.RemoteGitRepoCacheVersion,
        x.Slug remoteGaConfig.Name, scheme]
    (clonePath, none)

/-- The loop of `generateGitArtifacts` over `dimgBaseConfig.Git.Remote`: the artifacts
collected so far, the conveyor and the events so far are threaded through. -/
def remoteGitArtifactsLoop (x : Ext) (dimgName : String) :
    List GitRemote → Conveyor → List Event → List GitArtifact →
      (List GitArtifact × Option GoError) × Conveyor × List Event
  | [], c, ev, gitArtifacts => ((gitArtifacts, none), c, ev)
  | remoteGAConfig :: rest, c, ev, gitArtifacts =>
    match c.remoteGitRepos.lookup remoteGAConfig.Name with
    | some remoteGitRepo =>
      remoteGitArtifactsLoop x dimgName rest c ev
        (gitArtifacts ++ [gitRemoteArtifactInit x remoteGAConfig remoteGitRepo dimgName c])
    | none =>
      match getRemoteGitRepoClonePath x remoteGAConfig c with
      | (_, some err) => (([], some err), c, ev)
      | (clonePath, none) =>
        let remoteGitRepo : Remote :=
          { Name := remoteGAConfig.Name, Url := remoteGAConfig.Url, ClonePath := clonePath }
        match x.CloneAndFetch remoteGitRepo with
        | some err => (([], some err), c, ev ++ [Event.cloneAndFetch remoteGitRepo])
        | none =>
          let c1 : Conveyor :=
            { c with remoteGitRepos := (remoteGAConfig.Name, remoteGitRepo) :: c.remoteGitRepos }
          remoteGitArtifactsLoop x dimgName rest c1 (ev ++ [Event.cloneAndFetch remoteGitRepo])
            (gitArtifacts ++ [gitRemoteArtifactInit x remoteGAConfig remoteGitRepo dimgName c1])

/-- The last loop of `generateGitArtifacts`: keep the artifacts that are not empty. -/
def nonEmptyGitArtifactsLoop (x : Ext) :
    List GitArtifact → List GitArtifact → List GitArtifact × Option GoError
  | [], nonEmptyGitArtifacts => (nonEmptyGitArtifacts, none)
  | ga :: rest, nonEmptyGitArtifacts =>
    match x.IsEmpty ga with
    | (_, some err) => ([], some err)
    | (empty, none) =>
      if !empty then nonEmptyGitArtifactsLoop x rest (nonEmptyGitArtifacts ++ [ga])
      else nonEmptyGitArtifactsLoop x rest nonEmptyGitArtifacts

/-- Go `generateGitArtifacts`. -/
def generateGitArtifacts (x : Ext) (dimgBaseConfig : DimgBase) (c : Conveyor) (ev : List Event) :
    (List GitArtifact × Option GoError) × Conveyor × List Event :=
  let localGitRepo : Option LocalRepo :=
    if dimgBaseConfig.Git.Local.length ≠ 0 then
      some { Name := "own", Path := c.projectDir, GitDir := x.pathJoin [c.projectDir, ".git"] }
    else none
  let gitArtifacts : List GitArtifact :=
    dimgBaseConfig.Git.Local.map fun localGAConfig =>
      gitLocalArtifactInit x localGAConfig localGitRepo dimgBaseConfig.Name c
  match remoteGitArtifactsLoop x dimgBaseConfig.Name dimgBaseConfig.Git.Remote c ev
      gitArtifacts with
  | ((_, some err), c1, ev1) => (([], some err), c1, ev1)
  | ((gitArtifacts, none), c1, ev1) => (nonEmptyGitArtifactsLoop x gitArtifacts [], c1, ev1)

/-- The loop of `generateStages` that resolves and prints the commit of every artifact. -/
def latestCommitLoop (x : Ext) : List GitArtifact → List Event → Option GoError × List Event
  | [], ev => (none, ev)
  | ga :: rest, ev =>
    match x.LatestCommit ga with
    | (_, some err) =>
      (some ⟨"unable to get commit of repo '" ++ x.repoString ga.GitRepo ++ "': " ++ err.msg⟩, ev)
    | (commit, none) =>
      latestCommitLoop x rest
        (ev ++ [Event.printed
          ("Using commit '" ++ commit ++ "' of repo '" ++ x.repoString ga.GitRepo ++ "'\n")])

/-- Go `appendIfExist`; `none` is a nil stage. -/
def appendIfExist (stages : List Stage) (stage : Option Stage) : List Stage :=
  match stage with
  | some s => stages ++ [s]
  | none => stages

/-- Modelled from the spec: the common shape of the constructors of package `stage` that may
return nil: nil, or a stage with the given name and options. -/
def StagePkg.generate (exists_ : Bool) (name : StageName) (baseStageOptions : NewBaseStageOptions)
    (gaPatchStageOptions : Option NewGaPatchStageOptions) : Option Stage :=
  if exists_ then some ⟨name, baseStageOptions, none, gaPatchStageOptions, []⟩ else none

/-- Modelled from the spec: `stage.GenerateFromStage`, which returns nil or the stage named
from. -/
def GenerateFromStage (p : StagePkg) (dimgBaseConfig : DimgBase)
    (baseStageOptions : NewBaseStageOptions) : Option Stage :=
  StagePkg.generate (p.hasFrom dimgBaseConfig) StageName.From baseStageOptions none

/-- Modelled from the spec: `stage.GenerateBeforeInstallStage`, which returns nil or the stage named
beforeInstall. -/
def GenerateBeforeInstallStage (p : StagePkg) (dimgBaseConfig : DimgBase)
    (baseStageOptions : NewBaseStageOptions) : Option Stage :=
  StagePkg.generate (p.hasBeforeInstall dimgBaseConfig) StageName.BeforeInstall
    baseStageOptions none

/-- Modelled from the spec: `stage.GenerateArtifactImportBeforeInstallStage`,
which returns nil or the stage named
beforeInstallArtifactImport. -/
def GenerateArtifactImportBeforeInstallStage (p : StagePkg) (dimgBaseConfig : DimgBase)
    (baseStageOptions : NewBaseStageOptions) : Option Stage :=
  StagePkg.generate (p.hasArtifactImportBeforeInstall dimgBaseConfig) StageName.ArtifactImportBeforeInstall
    baseStageOptions none

/-- Modelled from the spec: `stage.GenerateInstallStage`, which returns nil or the stage named
install. -/
def GenerateInstallStage (p : StagePkg) (dimgBaseConfig : DimgBase)
    (gaPatchStageOptions : NewGaPatchStageOptions) (baseStageOptions : NewBaseStageOptions) :
    Option Stage :=
  StagePkg.generate (p.hasInstall dimgBaseConfig) StageName.Install baseStageOptions
    (some gaPatchStageOptions)

/-- Modelled from the spec: `stage.GenerateArtifactImportAfterInstallStage`,
which returns nil or the stage named
afterInstallArtifactImport. -/
def GenerateArtifactImportAfterInstallStage (p : StagePkg) (dimgBaseConfig : DimgBase)
    (baseStageOptions : NewBaseStageOptions) : Option Stage :=
  StagePkg.generate (p.hasArtifactImportAfterInstall dimgBaseConfig) StageName.ArtifactImportAfterInstall
    baseStageOptions none

/-- Modelled from the spec: `stage.GenerateBeforeSetupStage`, which returns nil or the stage named
beforeSetup. -/
def GenerateBeforeSetupStage (p : StagePkg) (dimgBaseConfig : DimgBase)
    (gaPatchStageOptions : NewGaPatchStageOptions) (baseStageOptions : NewBaseStageOptions) :
    Option Stage :=
  StagePkg.generate (p.hasBeforeSetup dimgBaseConfig) StageName.BeforeSetup baseStageOptions
    (some gaPatchStageOptions)

/-- Modelled from the spec: `stage.GenerateArtifactImportBeforeSetupStage`,
which returns nil or the stage named
beforeSetupArtifactImport. -/
def GenerateArtifactImportBeforeSetupStage (p : StagePkg) (dimgBaseConfig : DimgBase)
    (baseStageOptions : NewBaseStageOptions) : Option Stage :=
  StagePkg.generate (p.hasArtifactImportBeforeSetup dimgBaseConfig) StageName.ArtifactImportBeforeSetup
    baseStageOptions none

/-- Modelled from the spec: `stage.GenerateSetupStage`, which returns nil or the stage named
setup. -/
def GenerateSetupStage (p : StagePkg) (dimgBaseConfig : DimgBase)
    (gaPatchStageOptions : NewGaPatchStageOptions) (baseStageOptions : NewBaseStageOptions) :
    Option Stage :=
  StagePkg.generate (p.hasSetup dimgBaseConfig) StageName.Setup baseStageOptions
    (some gaPatchStageOptions)

/-- Modelled from the spec: `stage.GenerateArtifactImportAfterSetupStage`,
which returns nil or the stage named
afterSetupArtifactImport. -/
def GenerateArtifactImportAfterSetupStage (p : StagePkg) (dimgBaseConfig : DimgBase)
    (baseStageOptions : NewBaseStageOptions) : Option Stage :=
  StagePkg.generate (p.hasArtifactImportAfterSetup dimgBaseConfig) StageName.ArtifactImportAfterSetup
    baseStageOptions none

/-- Modelled from the spec: `stage.GenerateDockerInstructionsStage`,
which returns nil or the stage named
dockerInstructions. -/
def GenerateDockerInstructionsStage (p : StagePkg) (dimgConfig : Dimg)
    (baseStageOptions : NewBaseStageOptions) : Option Stage :=
  StagePkg.generate (p.hasDockerInstructions dimgConfig) StageName.DockerInstructions
    baseStageOptions none

/-- Modelled from the spec: `stage.NewGAArchiveStage`, which always returns a stage, named
gitArchive. -/
def NewGAArchiveStage (gaArchiveStageOptions : NewGAArchiveStageOptions)
    (baseStageOptions : NewBaseStageOptions) : Stage :=
  ⟨StageName.GAArchive, baseStageOptions, some gaArchiveStageOptions, none, []⟩

/-- Modelled from the spec: `stage.NewGAPostSetupPatchStage`, which always returns a stage,
named gitPostSetupPatch (`ga_post_setup_patch.go` passes the name `GAPostSetupPatch`). -/
def NewGAPostSetupPatchStage (gaPatchStageOptions : NewGaPatchStageOptions)
    (baseStageOptions : NewBaseStageOptions) : Stage :=
  ⟨StageName.GAPostSetupPatch, baseStageOptions, none, some gaPatchStageOptions, []⟩

/-- Modelled from the spec: `stage.NewGALatestPatchStage`, which always returns a stage,
named gitLatestPatch. -/
def NewGALatestPatchStage (gaPatchStageOptions : NewGaPatchStageOptions)
    (baseStageOptions : NewBaseStageOptions) : Stage :=
  ⟨StageName.GALatestPatch, baseStageOptions, none, some gaPatchStageOptions, []⟩

/-- Go `generateStages`. The conveyor (whose remote-repository cache may grow) and the events
are threaded through; on an error the stage list is nil. -/
def generateStages (x : Ext) (p : StagePkg) (dimgConfig : DimgInterface) (c : Conveyor)
    (ev : List Event) : (List Stage × Option GoError) × Conveyor × List Event :=
  match processDimgConfig dimgConfig with
  | (dimgBaseConfig, dimgName, dimgArtifact) =>
    let baseStageOptions : NewBaseStageOptions :=
      { DimgName := dimgName
        ConfigMounts := dimgBaseConfig.Mount
        DimgTmpDir := x.GetDimgTmpDir c dimgBaseConfig.Name
        ContainerDappDir := c.containerDappDir
        ProjectBuildDir := c.projectBuildDir }
    let gaArchiveStageOptions : NewGAArchiveStageOptions :=
      { ArchivesDir := getDimgArchivesDir x dimgName c
        ContainerArchivesDir := getDimgArchivesContainerDir x c }
    let gaPatchStageOptions : NewGaPatchStageOptions :=
      { PatchesDir := getDimgPatchesDir x dimgName c
        ContainerPatchesDir := getDimgPatchesContainerDir x c }
    match generateGitArtifacts x dimgBaseConfig c ev with
    | ((_, some err), c1, ev1) => (([], some err), c1, ev1)
    | ((gitArtifacts, none), c1, ev1) =>
      match latestCommitLoop x gitArtifacts ev1 with
      | (some err, ev2) => (([], some err), c1, ev2)
      | (none, ev2) =>
        let stages : List Stage := []
        -- from
        let stages := appendIfExist stages
          (GenerateFromStage p dimgBaseConfig baseStageOptions)
        -- before_install
        let stages := appendIfExist stages
          (GenerateBeforeInstallStage p dimgBaseConfig baseStageOptions)
        -- before_install_artifact
        let stages := appendIfExist stages
          (GenerateArtifactImportBeforeInstallStage p dimgBaseConfig baseStageOptions)
        -- g_a_archive_stage
        let stages := stages ++ [NewGAArchiveStage gaArchiveStageOptions baseStageOptions]
        -- install
        let stages := appendIfExist stages
          (GenerateInstallStage p dimgBaseConfig gaPatchStageOptions baseStageOptions)
        -- after_install_artifact
        let stages := appendIfExist stages
          (GenerateArtifactImportAfterInstallStage p dimgBaseConfig baseStageOptions)
        -- before_setup
        let stages := appendIfExist stages
          (GenerateBeforeSetupStage p dimgBaseConfig gaPatchStageOptions baseStageOptions)
        -- before_setup_artifact
        let stages := appendIfExist stages
          (GenerateArtifactImportBeforeSetupStage p dimgBaseConfig baseStageOptions)
        -- setup
        let stages := appendIfExist stages
          (GenerateSetupStage p dimgBaseConfig gaPatchStageOptions baseStageOptions)
        -- after_setup_artifact
        let stages := appendIfExist stages
          (GenerateArtifactImportAfterSetupStage p dimgBaseConfig baseStageOptions)
        let stages :=
          if !dimgArtifact then
            -- g_a_post_setup_patch
            let stages := stages ++ [NewGAPostSetupPatchStage gaPatchStageOptions baseStageOptions]
            -- g_a_latest_patch
            let stages := stages ++ [NewGALatestPatchStage gaPatchStageOptions baseStageOptions]
            -- docker_instructions; the type assertion `dimgConfig.(*config.Dimg)` cannot fail
            -- here, since `dimgArtifact` is false for a `*config.Dimg` only
            match dimgConfig with
            | .dimg d => appendIfExist stages (GenerateDockerInstructionsStage p d baseStageOptions)
            | .dimgArtifact _ => stages
          else stages
        ((stages.map fun s => s.SetGitArtifacts gitArtifacts, none), c1, ev2)

/-- The fixed stage order of a shippable image. -/
def stageOrder : List StageName :=
  [StageName.From, StageName.BeforeInstall, StageName.ArtifactImportBeforeInstall,
    StageName.GAArchive, StageName.Install, StageName.ArtifactImportAfterInstall,
    StageName.BeforeSetup, StageName.ArtifactImportBeforeSetup, StageName.Setup,
    StageName.ArtifactImportAfterSetup, StageName.GAPostSetupPatch, StageName.GALatestPatch,
    StageName.DockerInstructions]

/-- The names of the stages that `generateStages` returns. -/
def generatedStageNames (x : Ext) (p : StagePkg) (dimgConfig : DimgInterface) (c : Conveyor)
    (ev : List Event) : List StageName :=
  (generateStages x p dimgConfig c ev).1.1.map Stage.Name

/-- Go `getFromAndFromDimgName`: the external base image name and the name of the base dimg.
`none` is the nil dereference that Go runs into when neither a base image name nor a base
dimg is configured. -/
def getFromAndFromDimgName (dimgBaseConfig : DimgBase) : Option (String × String) :=
  if dimgBaseConfig.From ≠ "" then some (dimgBaseConfig.From, "")
  else
    match dimgBaseConfig.FromDimg with
    | DimgPtr.ptr fromDimg => some ("", fromDimg.DimgBase.Name)
    | DimgPtr.nil =>
      match dimgBaseConfig.FromDimgArtifact with
      | DimgArtifactPtr.ptr fromDimgArtifact => some ("", fromDimgArtifact.DimgBase.Name)
      | DimgArtifactPtr.nil => none

/-- Go `getDimgConfigByName`; `none` is the nil pointer. -/
def getDimgConfigByName (dappfile : List Dimg) (name : String) : Option Dimg :=
  match dappfile with
  | [] => none
  | dimg :: rest => if dimg.Name = name then some dimg else getDimgConfigByName rest name

/-- The text that `getDimgConfigToProcess` logs for a name that is not configured. -/
def unknownDimgWarning (dimgName : String) : String :=
  "WARNING: Specified dimg '" ++ dimgName ++ "' isn't defined in dappfile!\n"

/-- The loop of `getDimgConfigToProcess` over `c.dimgNamesToProcess`. -/
def dimgNamesLoop (dappfile : List Dimg) :
    List String → List Dimg → List Event → List Dimg × List Event
  | [], dimgConfigsToProcess, ev => (dimgConfigsToProcess, ev)
  | dimgName :: rest, dimgConfigsToProcess, ev =>
    match getDimgConfigByName dappfile dimgName with
    | none =>
      dimgNamesLoop dappfile rest dimgConfigsToProcess
        (ev ++ [Event.warning (unknownDimgWarning dimgName)])
    | some dimgToProcess =>
      dimgNamesLoop dappfile rest (dimgConfigsToProcess ++ [dimgToProcess]) ev

/-- Go `getDimgConfigToProcess`, with the warnings it logs. -/
def getDimgConfigToProcess (dappfile : List Dimg) (c : Conveyor) (ev : List Event) :
    List Dimg × List Event :=
  if c.dimgNamesToProcess.length = 0 then (dappfile, ev)
  else dimgNamesLoop dappfile c.dimgNamesToProcess [] ev

/-- Go `isNotInArr`; `reflect.DeepEqual` is equality of configurations. -/
def isNotInArr (arr : List DimgInterface) (obj : DimgInterface) : Bool :=
  match arr with
  | [] => true
  | elm :: rest => if elm = obj then false else isNotInArr rest obj

/-- The body of the inner loop of `getDimgConfigsInOrder`. -/
def appendIfNotInArr (dimgConfigs : List DimgInterface) (obj : DimgInterface) :
    List DimgInterface :=
  if isNotInArr dimgConfigs obj then dimgConfigs ++ [obj] else dimgConfigs

/-- Go `getDimgConfigsInOrder`, with the warnings logged by `getDimgConfigToProcess`. -/
def getDimgConfigsInOrder (x : Ext) (dappfile : List Dimg) (c : Conveyor) (ev : List Event) :
    List DimgInterface × List Event :=
  match getDimgConfigToProcess dappfile c ev with
  | (selected, ev1) =>
    (selected.foldl
      (fun dimgConfigs dimg => (x.DimgTree dimg).foldl appendIfNotInArr dimgConfigs) [], ev1)

/-! ## `pkg/build/stage/ga_post_setup_patch.go` -/

/-- Go `patchSizeStep`. -/
def patchSizeStep : Int := 1024 * 1024

/-- The value of an integer as a Go `int64`: reduced modulo `2^64` into
`[-2^63, 2^63)`. -/
def wrap64 (n : Int) : Int := (n + 2 ^ 63) % 2 ^ 64 - 2 ^ 63

/-- The Go conversion `string(n)` of an `int64`: the UTF-8 text of the code point `n`, and
U+FFFD when `n` is not a valid code point (negative, a surrogate, or above U+10FFFF). -/
def goStringOfInt64 (n : Int) : String :=
  if (0 ≤ n ∧ n < 0xD800) ∨ (0xE000 ≤ n ∧ n ≤ 0x10FFFF) then
    String.singleton (Char.ofNat n.toNat)
  else String.singleton (Char.ofNat 0xFFFD)

/-- The loop of `GAPostSetupPatchStage.GetDependencies`: `size` is the `int64` accumulator;
the calls to the repository are recorded as events. -/
def patchSizeLoop (x : Ext) (prevImage : Image) :
    List GitArtifact → Int → List Event → (Int × Option GoError) × List Event
  | [], size, ev => ((size, none), ev)
  | ga :: rest, size, ev =>
    let commit := x.GetGACommitFromImageLabels ga prevImage
    if commit ≠ "" then
      match x.IsCommitExists ga.GitRepo commit with
      | (_, some err) => ((size, some err), ev ++ [Event.isCommitExists ga commit])
      | (exist, none) =>
        if exist then
          match x.PatchSize ga commit with
          | (_, some err) =>
            ((size, some err),
              ev ++ [Event.isCommitExists ga commit, Event.patchSize ga commit])
          | (patchSize, none) =>
            patchSizeLoop x prevImage rest (wrap64 (size + patchSize))
              (ev ++ [Event.isCommitExists ga commit, Event.patchSize ga commit])
        else patchSizeLoop x prevImage rest size (ev ++ [Event.isCommitExists ga commit])
    else patchSizeLoop x prevImage rest size ev

/-- Go `GAPostSetupPatchStage.GetDependencies`. -/
def GetDependencies (x : Ext) (s : Stage) (prevImage : Image) (ev : List Event) :
    (String × Option GoError) × List Event :=
  match patchSizeLoop x prevImage s.gitArtifacts 0 ev with
  | ((_, some err), ev1) => (("", some err), ev1)
  | ((size, none), ev1) =>
    ((x.Sha256Hash [goStringOfInt64 (Int.tdiv size patchSizeStep)], none), ev1)

/-! ## Auxiliary definitions for the statements -/

/-- The commit of a git artifact recorded in the labels of the previous image. -/
def recordedCommit (x : Ext) (prevImage : Image) (ga : GitArtifact) : String :=
  x.GetGACommitFromImageLabels ga prevImage

/-- Whether the commit recorded for a git artifact is non-empty and still exists. -/
def recordedCommitExists (x : Ext) (prevImage : Image) (ga : GitArtifact) : Bool :=
  decide (recordedCommit x prevImage ga ≠ "")
    && (x.IsCommitExists ga.GitRepo (recordedCommit x prevImage ga)).1

/-- The sum of the patch sizes of the artifacts whose recorded commit is non-empty and
still exists. -/
def patchSizeSum (x : Ext) (prevImage : Image) (gas : List GitArtifact) : Int :=
  ((gas.filter (recordedCommitExists x prevImage)).map fun ga =>
    (x.PatchSize ga (recordedCommit x prevImage ga)).1).sum

/-- The calls that `GetDependencies` makes to the repository for one git artifact when none
of them fails. -/
def patchSizeCalls (x : Ext) (prevImage : Image) (ga : GitArtifact) : List Event :=
  if recordedCommit x prevImage ga = "" then []
  else if (x.IsCommitExists ga.GitRepo (recordedCommit x prevImage ga)).1 then
    [Event.isCommitExists ga (recordedCommit x prevImage ga),
      Event.patchSize ga (recordedCommit x prevImage ga)]
  else [Event.isCommitExists ga (recordedCommit x prevImage ga)]

/-- Whether an event is a call to `PatchSize` for the given git artifact. -/
def isPatchSizeCallFor (ga : GitArtifact) : Event → Bool
  | Event.patchSize ga1 _ => decide (ga1 = ga)
  | _ => false



/-- The name of an optional stage, as a list. -/
def optName (b : Bool) (n : StageName) : List StageName := if b then [n] else []

/-- The names of the stages that a shippable image and an artifact image have in common. -/
def commonStageNames (p : StagePkg) (b : DimgBase) : List StageName :=
  optName (p.hasFrom b) StageName.From ++ optName (p.hasBeforeInstall b) StageName.BeforeInstall
    ++ optName (p.hasArtifactImportBeforeInstall b) StageName.ArtifactImportBeforeInstall
    ++ [StageName.GAArchive]
    ++ optName (p.hasInstall b) StageName.Install
    ++ optName (p.hasArtifactImportAfterInstall b) StageName.ArtifactImportAfterInstall
    ++ optName (p.hasBeforeSetup b) StageName.BeforeSetup
    ++ optName (p.hasArtifactImportBeforeSetup b) StageName.ArtifactImportBeforeSetup
    ++ optName (p.hasSetup b) StageName.Setup
    ++ optName (p.hasArtifactImportAfterSetup b) StageName.ArtifactImportAfterSetup

/-- The concatenation of the `DimgTree` lists of the selected images. -/
def selectedTrees (x : Ext) (dappfile : List Dimg) (c : Conveyor) (ev : List Event) :
    List DimgInterface :=
  ((getDimgConfigToProcess dappfile c ev).1.map x.DimgTree).flatten

/-- The base image of an image when that base is another dimg or dimg artifact: the
configuration whose name `getFromAndFromDimgName` returns as the base dimg name. -/
def baseDimgConfig (dimgConfig : DimgInterface) : Option DimgInterface :=
  let dimgBaseConfig := (processDimgConfig dimgConfig).1
  if dimgBaseConfig.From ≠ "" then none
  else
    match dimgBaseConfig.FromDimg with
    | DimgPtr.ptr fromDimg => some (DimgInterface.dimg fromDimg)
    | DimgPtr.nil =>
      match dimgBaseConfig.FromDimgArtifact with
      | DimgArtifactPtr.ptr fromDimgArtifact => some (DimgInterface.dimgArtifact fromDimgArtifact)
      | DimgArtifactPtr.nil => none

/-! ## Sample inputs -/

/-- A sample outside world: every URL parses with scheme https, cloning succeeds, every
artifact is non-empty, the commit recorded for an artifact is the label of its name, the
commit "gone" no longer exists, the patch size is known for the commits c1, c2 and c3 only,
and every image's tree is the image alone. -/
def sampleExt : Ext where
  urlParse := fun _ => .ok ⟨"https"⟩
  pathJoin := fun parts => "/".intercalate parts
  Slug := fun s => s
  RemoteGitRepoCacheVersion := "1"
  GetDimgTmpDir := fun c name => c.tmpDir ++ "/" ++ name
  CloneAndFetch := fun _ => none
  IsEmpty := fun _ => (false, none)
  LatestCommit := fun _ => ("c0ffee", none)
  repoString := fun _ => "repo"
  GetGACommitFromImageLabels := fun ga image => (image.Labels.lookup ga.Name).getD ""
  IsCommitExists := fun _ commit => (commit != "gone", none)
  PatchSize := fun _ commit =>
    if commit = "c1" then (1500000, none)
    else if commit = "c2" then (700000, none)
    else if commit = "c3" then (1400000, none)
    else (0, some ⟨"unknown revision"⟩)
  Sha256Hash := fun args => "sha256(" ++ ",".intercalate args ++ ")"
  DimgTree := fun d => [DimgInterface.dimg d]

/-- The scheme split of the sample `url.Parse`: letters, digits, `+`, `-` and `.` up to the
first colon form the scheme; any other character, or a leading digit or sign, means that there
is no scheme. -/
def sampleGetScheme (rawURL : List Char) :
    List Char → List Char → Except GoError (List Char × List Char)
  | _, [] => .ok ([], rawURL)
  | seen, ch :: rest =>
    if ch.isAlpha then sampleGetScheme rawURL (seen ++ [ch]) rest
    else if ch.isDigit || ch = '+' || ch = '-' || ch = '.' then
      if seen = [] then .ok ([], rawURL) else sampleGetScheme rawURL (seen ++ [ch]) rest
    else if ch = ':' then
      if seen = [] then .error ⟨"missing protocol scheme"⟩ else .ok (seen, rest)
    else .ok ([], rawURL)

/-- A sample `url.Parse`, after Go's `net/url`: the scheme is split off, and a reference
without scheme whose first path segment contains a colon is rejected. -/
def sampleUrlParse (rawURL : String) : Except GoError URL :=
  let u := rawURL.data.takeWhile fun ch => ch ≠ '#'
  match sampleGetScheme u [] u with
  | .error err => .error ⟨"parse \"" ++ String.mk u ++ "\": " ++ err.msg⟩
  | .ok (scheme, rest) =>
    let rest := rest.takeWhile fun ch => ch ≠ '?'
    if rest.head? ≠ some '/' ∧ scheme = [] ∧ ':' ∈ rest.takeWhile (fun ch => ch ≠ '/') then
      .error ⟨"parse \"" ++ String.mk u
        ++ "\": first path segment in URL cannot contain colon"⟩
    else .ok ⟨String.mk (scheme.map Char.toLower)⟩

/-- The sample outside world with the sample `url.Parse`. -/
def sampleUrlExt : Ext := { sampleExt with urlParse := sampleUrlParse }

/-- A sample git artifact with the given name. -/
def sampleArtifact (name : String) : GitArtifact :=
  { PatchesDir := "/t/app/patch", ContainerPatchesDir := "/.dapp/patch"
    ArchivesDir := "/t/app/archive", ContainerArchivesDir := "/.dapp/archive"
    RepoPath := "/", Cwd := "", To := "/app", ExcludePaths := [], IncludePaths := []
    Owner := "", Group := "", StagesDependencies := none, Tag := "", Commit := ""
    Branch := "master", As := "", Name := name
    GitRepoInterface := GitRepo.remoteRepo ⟨name, "https://example.com/" ++ name, "/b/" ++ name⟩ }

/-- A sample post-setup patch stage with four git artifacts. -/
def samplePatchStage : Stage :=
  { Name := StageName.GAPostSetupPatch
    baseStageOptions := ⟨"app", [], "/t/app", "/.dapp", "/b"⟩
    gaArchiveStageOptions := none
    gaPatchStageOptions := some ⟨"/t/app/patch", "/.dapp/patch"⟩
    gitArtifacts := [sampleArtifact "a", sampleArtifact "b", sampleArtifact "c",
      sampleArtifact "d"] }

/-- A sample previous image: artifact a was synced at c1, b has no recorded commit, the
commit recorded for c no longer exists, d was synced at c2. -/
def samplePrevImage : Image := ⟨[("a", "c1"), ("c", "gone"), ("d", "c2")]⟩

/-- Another sample previous image: a was synced at c1 and d at c3. -/
def samplePrevImage2 : Image := ⟨[("a", "c1"), ("d", "c3")]⟩

/-- A sample stage package: only the install and setup stages exist. -/
def sampleStagePkg : StagePkg where
  hasFrom := fun _ => false
  hasBeforeInstall := fun _ => false
  hasArtifactImportBeforeInstall := fun _ => false
  hasInstall := fun _ => true
  hasArtifactImportAfterInstall := fun _ => false
  hasBeforeSetup := fun _ => false
  hasArtifactImportBeforeSetup := fun _ => false
  hasSetup := fun _ => true
  hasArtifactImportAfterSetup := fun _ => false
  hasDockerInstructions := fun _ => false

/-- A sample export section of a git artifact. -/
def sampleExport : GitLocalExport :=
  { Add := "/src", To := "/app", ExcludePaths := [], IncludePaths := [], Owner := "",
    Group := "", StageDependencies := none }

/-- A sample base configuration with one local and one remote git artifact. -/
def sampleBase : DimgBase :=
  DimgBase.mk "app" "alpine" DimgPtr.nil DimgArtifactPtr.nil
    ⟨[⟨sampleExport, "src"⟩],
      [⟨sampleExport, "master", "", "", "lib", "https://example.com/org/lib.git"⟩]⟩ [] ""

/-- A sample conveyor. -/
def sampleConveyor : Conveyor :=
  { dimgNamesToProcess := []
    remoteGitRepos := []
    projectDir := "/p"
    projectBuildDir := "/b"
    tmpDir := "/t"
    containerDappDir := "/.dapp" }

/-- A sample image on an external base image. -/
def sampleBaseImage : Dimg :=
  Dimg.mk (DimgBase.mk "base" "alpine" DimgPtr.nil DimgArtifactPtr.nil ⟨[], []⟩ [] "") []

/-- A sample image whose base is `sampleBaseImage`. -/
def sampleApp (name : String) : Dimg :=
  Dimg.mk
    (DimgBase.mk name "" (DimgPtr.ptr sampleBaseImage) DimgArtifactPtr.nil ⟨[], []⟩ [] "") []

/-- A sample dappfile: a base image and images built on it, one name occurring twice. -/
def sampleDappfile : List Dimg :=
  [sampleBaseImage, sampleApp "web", sampleApp "worker", sampleApp "web"]

/-- The sample outside world, with the tree of an image being its base image, if that is a
dimg, followed by the image. -/
def sampleTreeExt : Ext :=
  { sampleExt with
    DimgTree := fun d =>
      match baseDimgConfig (DimgInterface.dimg d) with
      | some base => [base, DimgInterface.dimg d]
      | none => [DimgInterface.dimg d] }

/-- A sample conveyor that requests two configured images and an unknown one. -/
def sampleRequest : Conveyor :=
  { sampleConveyor with dimgNamesToProcess := ["web", "nothing", "worker"] }


/-! ## Sample inputs for the bucket index -/

/-- The sample outside world with very large patches: 55296 MiB at commit c1 and 1 MiB at
commit c2. -/
def sampleBigExt : Ext :=
  { sampleExt with
    PatchSize := fun _ commit =>
      if commit = "c1" then (57982058496, none)
      else if commit = "c2" then (1048576, none)
      else (0, some ⟨"unknown revision"⟩) }

/-- A sample previous image in which only artifact a was synced, at c1. -/
def samplePrevImage3 : Image := ⟨[("a", "c1")]⟩

/-! ## `pkg/git/diff_parser.go` -/

/-- Go `parserState`, with its eight constants. -/
inductive parserState where
  | unrecognized
  | diffBegin
  | diffBody
  | newFileDiff
  | deleteFileDiff
  | modifyFileDiff
  | modifyFileModeDiff
  | ignoreDiff
  deriving DecidableEq, Repr

/-- The string value of a `parserState` constant. -/
def parserState.text : parserState → String
  | unrecognized => "unrecognized"
  | diffBegin => "diffBegin"
  | diffBody => "diffBody"
  | newFileDiff => "newFileDiff"
  | deleteFileDiff => "deleteFileDiff"
  | modifyFileDiff => "modifyFileDiff"
  | modifyFileModeDiff => "modifyFileModeDiff"
  | ignoreDiff => "ignoreDiff"

/-- The struct `diffParser`, as far as the excerpt of `diff_parser.go` uses it: the state and
the lines written to the output so far. -/
structure diffParser where
  state : parserState
  Out : List String
  deriving DecidableEq, Repr

/-- The parts of the diff parser and of the Go library that lie outside the excerpt. -/
structure DiffExt where
  /-- Go `fmt`: the text of a string under the verb `%#v`. -/
  goQuote : String → String
  /-- The error, if any, with which the output writer refuses a line, given the lines
  written so far. -/
  outWrite : List String → String → Option GoError
  /-- The body of the branch for a line that starts with "deleted file mode ". -/
  handleDeletedFileMode : diffParser → String → diffParser × Option GoError
  /-- The body of the branch for a line that starts with "new file mode ". -/
  handleNewFileMode : diffParser → String → diffParser × Option GoError
  /-- The cases of the states other than the two of the excerpt. -/
  handleOtherState : diffParser → String → diffParser × Option GoError

/-- Modelled from the spec: method `writeOutLine`, which is not part of the excerpt. The line
is handed to the output writer unchanged; the writer's error, if any, is returned. -/
def diffParser.writeOutLine (h : DiffExt) (p : diffParser) (line : String) :
    diffParser × Option GoError :=
  match h.outWrite p.Out line with
  | some err => (p, some err)
  | none => ({ p with Out := p.Out ++ [line] }, none)

/-- Go `diffParser.handleModifyFileModeDiff`. -/
def diffParser.handleModifyFileModeDiff (h : DiffExt) (p : diffParser) (line : String) :
    diffParser × Option GoError :=
  diffParser.writeOutLine h { p with state := parserState.modifyFileModeDiff } line

/-- The error `fmt.Errorf("unexpected diff line in state %s: %#v", p.state, line)`, with the
state between backquotes. -/
def unexpectedDiffLine (h : DiffExt) (p : diffParser) (line : String) : GoError :=
  ⟨"unexpected diff line in state `" ++ p.state.text ++ "`: " ++ h.goQuote line⟩

/-- The switch on `p.state` of the excerpt of `diff_parser.go`, for one line. The first case of
the excerpt, whose label lies outside it, is the case of the state entered at a diff header,
`diffBegin`; its first two branches and the cases of the other states are parameters. -/
def diffParser.handleDiffLine (h : DiffExt) (p : diffParser) (line : String) :
    diffParser × Option GoError :=
  match p.state with
  | parserState.diffBegin =>
    if stringsHasStart line "deleted file mode " then h.handleDeletedFileMode p line
    else if stringsHasStart line "new file mode " then h.handleNewFileMode p line
    else if stringsHasStart line "old mode " then diffParser.handleModifyFileModeDiff h p line
    else (p, some (unexpectedDiffLine h p line))
  | parserState.modifyFileModeDiff =>
    if stringsHasStart line "new mode " then
      diffParser.writeOutLine h { p with state := parserState.unrecognized } line
    else (p, some (unexpectedDiffLine h p line))
  | _ => h.handleOtherState p line

/-- A sample diff parser environment: the writer accepts every line, `%#v` puts a line that
needs no escaping between double quotes, and the parts outside the excerpt do nothing. -/
def sampleDiffExt : DiffExt where
  goQuote := fun s => "\"" ++ s ++ "\""
  outWrite := fun _ _ => none
  handleDeletedFileMode := fun p _ => (p, none)
  handleNewFileMode := fun p _ => (p, none)
  handleOtherState := fun p _ => (p, none)

/-- The escape of one character in the sample `%#v` formatting. -/
def sampleEscape (ch : Char) : List Char :=
  if ch = '"' then ['\\', '"']
  else if ch = '\\' then ['\\', '\\']
  else if ch = '\t' then ['\\', 't']
  else if ch = '\n' then ['\\', 'n']
  else if ch = '\r' then ['\\', 'r']
  else [ch]

/-- A sample `%#v` formatting of a string, after Go's `strconv.Quote` on printable ASCII text:
the text between double quotes, with double quotes, backslashes, tabs, newlines and carriage
returns escaped by a backslash. -/
def sampleGoQuote (s : String) : String :=
  String.mk ('"' :: (s.data.flatMap sampleEscape ++ ['"']))

/-- The sample diff parser environment with the escaping `%#v` formatting. -/
def sampleQuoteDiffExt : DiffExt := { sampleDiffExt with goQuote := sampleGoQuote }

/-- Whether the second list of characters occurs in the first as a contiguous part. -/
def containsChars : List Char → List Char → Bool
  | [], part => part.isEmpty
  | ch :: rest, part => part.isPrefixOf (ch :: rest) || containsChars rest part

/-- Whether the second string occurs in the first. -/
def containsText (s part : String) : Bool := containsChars s.data part.data

/-! ## `pkg/build/stage/user_with_ga_patch.go` -/

/-- The struct `stage.UserWithGAPatchStage`, as far as `PrepareImage` uses it: the
`PrepareImage` methods of the embedded base stage and of the git-patch stage, which are not
part of the embedded files. Each takes the conveyor, the previous built image and the image,
and returns the image as it leaves it together with its error. -/
structure UserWithGAPatchStage where
  /-- Method `s.BaseStage.PrepareImage`. -/
  BaseStagePrepareImage : Conveyor → Image → Image → Image × Option GoError
  /-- Method `s.GAPatchStage.PrepareImage`. -/
  GAPatchStagePrepareImage : Conveyor → Image → Image → Image × Option GoError

/-- Go `UserWithGAPatchStage.PrepareImage`: the image as the call leaves it, and the error
returned. -/
def UserWithGAPatchStage.PrepareImage (s : UserWithGAPatchStage) (c : Conveyor)
    (prevBuiltImage image : Image) : Image × Option GoError :=
  match s.BaseStagePrepareImage c prevBuiltImage image with
  | (image1, some err) => (image1, some err)
  | (image1, none) =>
    match s.GAPatchStagePrepareImage c prevBuiltImage image1 with
    | (image2, some _) => (image2, none)
    | (image2, none) => (image2, none)

/-- A sample stage whose base stage prepares the image and whose git-patch stage fails. -/
def samplePatchFailure : UserWithGAPatchStage where
  BaseStagePrepareImage := fun _ _ image => (⟨("base", "done") :: image.Labels⟩, none)
  GAPatchStagePrepareImage := fun _ _ image => (image, some ⟨"unable to create patch"⟩)

/-! ## `pkg/build/builder/ansible.go` -/

/-- Modelled from the spec: the struct `config.AnsibleTask`, whose declaration is not part of
the embedded files; `Config` stands for the task's configuration value. -/
structure AnsibleTask where
  Config : String
  deriving DecidableEq, Repr

/-- Modelled from the spec: the struct `config.Ansible`, whose declaration is not part of the
embedded files, with the fields that `configFieldValue` is asked for: the tasks of the four
user stages, the global cache version and the cache version of each user stage. -/
structure AnsibleConfig where
  BeforeInstall : List AnsibleTask
  Install : List AnsibleTask
  BeforeSetup : List AnsibleTask
  Setup : List AnsibleTask
  CacheVersion : String
  BeforeInstallCacheVersion : String
  InstallCacheVersion : String
  BeforeSetupCacheVersion : String
  SetupCacheVersion : String
  deriving DecidableEq, Repr

/-- Go `builder.Extra`. -/
structure Extra where
  ContainerDappPath : String
  TmpPath : String
  deriving DecidableEq, Repr

/-- Go `builder.Ansible`. -/
structure Ansible where
  config : AnsibleConfig
  extra : Extra
  deriving DecidableEq, Repr

/-- The value of a field of `config.Ansible` as an `interface{}`. -/
inductive FieldValue where
  | tasks (value : List AnsibleTask)
  | text (value : String)
  deriving DecidableEq, Repr

/-- Modelled from the spec: the build-container specification behind the interface
`builder.Container`, to which a stage adds environment variables, volumes and run
commands. -/
structure Container where
  Env : List (String × String)
  Volumes : List String
  VolumesFrom : List String
  RunCommands : List String
  deriving DecidableEq, Repr

/-- Modelled from the spec: method `Container.AddEnv`. -/
def Container.AddEnv (container : Container) (env : List (String × String)) : Container :=
  { container with Env := container.Env ++ env }

/-- Modelled from the spec: method `Container.AddVolume`. -/
def Container.AddVolume (container : Container) (volumes : List String) : Container :=
  { container with Volumes := container.Volumes ++ volumes }

/-- Modelled from the spec: method `Container.AddVolumeFrom`. -/
def Container.AddVolumeFrom (container : Container) (volumesFrom : List String) : Container :=
  { container with VolumesFrom := container.VolumesFrom ++ volumesFrom }

/-- Modelled from the spec: method `Container.AddRunCommands`. -/
def Container.AddRunCommands (container : Container) (commands : List String) : Container :=
  { container with RunCommands := container.RunCommands ++ commands }

/-- The functions of other packages, and the methods of `Ansible` outside the embedded file,
that the embedded code of the Ansible builder calls. -/
structure BuilderExt where
  /-- Function `util.Sha256Hash`. -/
  Sha256Hash : List String → String
  /-- Package `yaml.v1`: `yaml.Marshal`, on a task's configuration. -/
  yamlMarshal : String → Except GoError String
  /-- Package `ghodss/yaml`: `YAMLToJSON`. -/
  YAMLToJSON : String → Except GoError String
  /-- Go `path/filepath`: `filepath.Join`. -/
  filepathJoin : List String → String
  /-- Go `os`: `os.LookupEnv`. -/
  LookupEnv : String → Option String
  /-- Function `mkdirP`. -/
  mkdirP : String → Option GoError
  /-- Method `Ansible.createStageWorkDirStructure`. -/
  createStageWorkDirStructure : Ansible → String → Option GoError
  /-- Method `Ansible.stageHostTmpDir`. -/
  stageHostTmpDir : Ansible → String → String × Option GoError
  /-- Method `Ansible.containerWorkDir`. -/
  containerWorkDir : Ansible → String
  /-- Method `Ansible.containerTmpDir`. -/
  containerTmpDir : Ansible → String
  /-- Function `dappdeps.BasePath`. -/
  BasePath : String
  /-- Function `dappdeps.AnsibleContainer`. -/
  AnsibleContainer : String × Option GoError
  /-- Function `dappdeps.AnsibleBinPath`. -/
  AnsibleBinPath : String → String

/-- Package `reflections`: `reflections.GetField` on a `*config.Ansible`; `none` is its
error for a name that is not a field. -/
def getField (config : AnsibleConfig) (fieldName : String) : Option FieldValue :=
  if fieldName = "BeforeInstall" then some (FieldValue.tasks config.BeforeInstall)
  else if fieldName = "Install" then some (FieldValue.tasks config.Install)
  else if fieldName = "BeforeSetup" then some (FieldValue.tasks config.BeforeSetup)
  else if fieldName = "Setup" then some (FieldValue.tasks config.Setup)
  else if fieldName = "CacheVersion" then some (FieldValue.text config.CacheVersion)
  else if fieldName = "BeforeInstallCacheVersion" then
    some (FieldValue.text config.BeforeInstallCacheVersion)
  else if fieldName = "InstallCacheVersion" then some (FieldValue.text config.InstallCacheVersion)
  else if fieldName = "BeforeSetupCacheVersion" then
    some (FieldValue.text config.BeforeSetupCacheVersion)
  else if fieldName = "SetupCacheVersion" then some (FieldValue.text config.SetupCacheVersion)
  else none

/-- Go `Ansible.configFieldValue`; `none` is the panic. -/
def Ansible.configFieldValue (b : Ansible) (fieldName : String) : Option FieldValue :=
  getField b.config fieldName

/-- Go `Ansible.stageTasks`; `none` is a panic. -/
def Ansible.stageTasks (b : Ansible) (userStageName : String) : Option (List AnsibleTask) :=
  match b.configFieldValue userStageName with
  | some (FieldValue.tasks ansibleTasks) => some ansibleTasks
  | _ => none

/-- Go `Ansible.stageVersionChecksum`; `none` is a panic. -/
def Ansible.stageVersionChecksum (x : BuilderExt) (b : Ansible) (userStageName : String) :
    Option String :=
  let stageVersionChecksumArgs : List String := []
  let cacheVersionFieldName := "CacheVersion"
  let stageCacheVersionFieldName := userStageName ++ cacheVersionFieldName
  match b.configFieldValue stageCacheVersionFieldName with
  | some (FieldValue.text stageChecksum) =>
    let stageVersionChecksumArgs :=
      if stageChecksum ≠ "" then stageVersionChecksumArgs ++ [stageChecksum]
      else stageVersionChecksumArgs
    match b.configFieldValue cacheVersionFieldName with
    | some (FieldValue.text checksum) =>
      let stageVersionChecksumArgs :=
        if checksum ≠ "" then stageVersionChecksumArgs ++ [checksum]
        else stageVersionChecksumArgs
      if stageVersionChecksumArgs.length ≠ 0 then some (x.Sha256Hash stageVersionChecksumArgs)
      else some ""
    | _ => none
  | _ => none

/-- The loop of `Ansible.stageChecksum` over the tasks of the stage; `none` is a panic. -/
def taskChecksumArgs (x : BuilderExt) : List AnsibleTask → List String → Option (List String)
  | [], checksumArgs => some checksumArgs
  | task :: rest, checksumArgs =>
    match x.yamlMarshal task.Config with
    | .error _ => none
    | .ok output =>
      match x.YAMLToJSON output with
      | .error _ => none
      | .ok jsonOutput => taskChecksumArgs x rest (checksumArgs ++ [jsonOutput])

/-- Go `Ansible.stageChecksum`; `none` is a panic. -/
def Ansible.stageChecksum (x : BuilderExt) (b : Ansible) (userStageName : String) :
    Option String :=
  match b.stageTasks userStageName with
  | none => none
  | some tasks =>
    match taskChecksumArgs x tasks [] with
    | none => none
    | some checksumArgs =>
      match b.stageVersionChecksum x userStageName with
      | none => none
      | some stageVersionChecksum =>
        let checksumArgs :=
          if stageVersionChecksum ≠ "" then checksumArgs ++ [stageVersionChecksum]
          else checksumArgs
        if checksumArgs.length ≠ 0 then some (x.Sha256Hash checksumArgs) else some ""

/-- Go `Ansible.isEmptyStage`; `none` is a panic. -/
def Ansible.isEmptyStage (x : BuilderExt) (b : Ansible) (userStageName : String) :
    Option Bool :=
  match b.stageChecksum x userStageName with
  | none => none
  | some checksum => some (decide (checksum = ""))

/-- Go `Ansible.stageHostWorkDir`. -/
def Ansible.stageHostWorkDir (x : BuilderExt) (b : Ansible) (userStageName : String) :
    String × Option GoError :=
  let path := x.filepathJoin [b.extra.TmpPath, "ansible-workdir-" ++ userStageName]
  match x.mkdirP path with
  | some err => ("", some err)
  | none => (path, none)

/-- Go `Ansible.stage`: the container as the call leaves it, and the error returned; `none`
is a panic. -/
def Ansible.stage (x : BuilderExt) (b : Ansible) (userStageName : String)
    (container : Container) : Option (Container × Option GoError) :=
  match b.stageTasks userStageName with
  | none => none
  | some tasks =>
    if tasks.length = 0 then some (container, none)
    else
      match x.createStageWorkDirStructure b userStageName with
      | some err => some (container, some err)
      | none =>
        let container := container.AddEnv
          [("ANSIBLE_CONFIG", x.filepathJoin [x.containerWorkDir b, "ansible.cfg"]),
            ("DAPP_DUMP_CONFIG_DOC_PATH", x.filepathJoin [x.containerWorkDir b, "dump_config.json"]),
            ("PYTHONPATH", x.filepathJoin [x.containerWorkDir b, "lib"]),
            ("PYTHONIOENCODING", "utf-8"),
            ("ANSIBLE_PREPEND_SYSTEM_PATH", x.BasePath)]
        match b.stageHostWorkDir x userStageName with
        | (_, some err) => some (container, some err)
        | (stageHostWorkDir, none) =>
          match x.stageHostTmpDir b userStageName with
          | (_, some err) => some (container, some err)
          | (stageHostTmpDir, none) =>
            let container := container.AddVolume
              [stageHostWorkDir ++ ":" ++ x.containerWorkDir b ++ ":ro",
                stageHostTmpDir ++ ":" ++ x.containerTmpDir b ++ ":rw"]
            match x.AnsibleContainer with
            | (_, some err) => some (container, some err)
            | (containerName, none) =>
              let container := container.AddVolumeFrom [containerName ++ ":ro"]
              let commands : List String :=
                [" ".intercalate
                  [x.AnsibleBinPath "ansible-playbook",
                    x.filepathJoin [x.containerWorkDir b, "playbook.yml"]]]
              let commands :=
                match x.LookupEnv "ANSIBLE_ARGS" with
                | some value => commands ++ [value]
                | none => commands
              some (container.AddRunCommands commands, none)

/-- A SHA-256 digest: 32 bytes. -/
structure Digest where
  bytes : List (Fin 256)
  size : bytes.length = 32

/-- The hexadecimal digit of a number below 16, in lower case. -/
def hexDigit (n : Nat) : Char := "0123456789abcdef".data.getD n '0'

/-- The text of a list of bytes under the verb `%x`: two hexadecimal digits for each byte. -/
def hexText (bytes : List (Fin 256)) : String :=
  String.mk (bytes.flatMap fun b => [hexDigit (b.val / 16), hexDigit (b.val % 16)])

/-- Modelled from the spec: function `util.Sha256Hash`, which is not part of the embedded
files: the hexadecimal text of the SHA-256 digest of its arguments, 64 characters. The digest
of a list of arguments is a parameter. -/
def Sha256Hash (sum256 : List String → Digest) (args : List String) : String :=
  hexText (sum256 args).bytes

/-! ## Auxiliary definitions for the statements about the Ansible builder -/

/-- The four user stages. -/
inductive UserStage where
  | BeforeInstall
  | Install
  | BeforeSetup
  | Setup
  deriving DecidableEq, Repr

/-- The name under which the builder is asked for a user stage. -/
def UserStage.name : UserStage → String
  | BeforeInstall => "BeforeInstall"
  | Install => "Install"
  | BeforeSetup => "BeforeSetup"
  | Setup => "Setup"

/-- The tasks that a configuration declares for a user stage. -/
def AnsibleConfig.tasks (config : AnsibleConfig) : UserStage → List AnsibleTask
  | UserStage.BeforeInstall => config.BeforeInstall
  | UserStage.Install => config.Install
  | UserStage.BeforeSetup => config.BeforeSetup
  | UserStage.Setup => config.Setup

/-- The cache version that a configuration declares for a user stage. -/
def AnsibleConfig.stageCacheVersion (config : AnsibleConfig) : UserStage → String
  | UserStage.BeforeInstall => config.BeforeInstallCacheVersion
  | UserStage.Install => config.InstallCacheVersion
  | UserStage.BeforeSetup => config.BeforeSetupCacheVersion
  | UserStage.Setup => config.SetupCacheVersion

/-- The non-empty ones of a stage's cache version and the global cache version, in this
order. -/
def versionArgs (stageCacheVersion cacheVersion : String) : List String :=
  (if stageCacheVersion ≠ "" then [stageCacheVersion] else [])
    ++ (if cacheVersion ≠ "" then [cacheVersion] else [])

/-- The checksum of a list of arguments: the empty string for no arguments, their hash
otherwise. -/
def checksumOf (hash : List String → String) (args : List String) : String :=
  if args = [] then "" else hash args

/-- A checksum as an argument: left out when it is empty. -/
def optArg (checksum : String) : List String :=
  if checksum ≠ "" then [checksum] else []

/-- The argument lists that `stageChecksum` hands to the hash for a user stage: the version
arguments and the checksum arguments, as far as they are not empty. -/
def hashedArgs (x : BuilderExt) (b : Ansible) (st : UserStage) : List (List String) :=
  match taskChecksumArgs x (b.config.tasks st) [] with
  | none => []
  | some checksumArgs =>
    [versionArgs (b.config.stageCacheVersion st) b.config.CacheVersion,
      checksumArgs ++ optArg (checksumOf x.Sha256Hash
        (versionArgs (b.config.stageCacheVersion st) b.config.CacheVersion))].filter
      fun args => decide (args ≠ [])

/-! ## Sample inputs for the Ansible builder -/

/-- A sample text encoding of a list of strings: every character is preceded by 1 and every
string is closed by 0. -/
def sampleEncode (args : List String) : List Char :=
  args.flatMap fun s => (s.data.flatMap fun ch => ['1', ch]) ++ ['0']

/-- A sample builder environment in which nothing fails and YAML and JSON texts are the
configuration values themselves, for a given hash. -/
def sampleBuilderExt (hash : List String → String) : BuilderExt where
  Sha256Hash := hash
  yamlMarshal := fun config => .ok config
  YAMLToJSON := fun output => .ok output
  filepathJoin := fun parts => "/".intercalate parts
  LookupEnv := fun _ => none
  mkdirP := fun _ => none
  createStageWorkDirStructure := fun _ _ => none
  stageHostTmpDir := fun b userStageName => (b.extra.TmpPath ++ "/tmp-" ++ userStageName, none)
  containerWorkDir := fun b => b.extra.ContainerDappPath ++ "/ansible-workdir"
  containerTmpDir := fun b => b.extra.ContainerDappPath ++ "/ansible-tmpdir"
  BasePath := "/.dapp/deps/base"
  AnsibleContainer := ("dappdeps-ansible", none)
  AnsibleBinPath := fun name => "/.dapp/deps/ansible/bin/" ++ name

/-- A sample hash that never returns the empty string. -/
def sampleHash (args : List String) : String := String.mk ('#' :: sampleEncode args)

/-- A sample Ansible builder: one install task, no other tasks, and the given cache versions
for the install stage and for all stages. -/
def sampleAnsible (installTasks : List AnsibleTask) (installCacheVersion cacheVersion : String) :
    Ansible :=
  { config :=
      { BeforeInstall := [], Install := installTasks, BeforeSetup := [], Setup := []
        CacheVersion := cacheVersion, BeforeInstallCacheVersion := ""
        InstallCacheVersion := installCacheVersion, BeforeSetupCacheVersion := ""
        SetupCacheVersion := "" }
    extra := ⟨"/.dapp", "/tmp/dapp"⟩ }

/-- A sample digest: the first 32 character codes of the sample encoding of the arguments,
filled up with zeros. -/
def sampleDigest (args : List String) : Digest where
  bytes :=
    (((sampleEncode args).map fun (ch : Char) =>
        (⟨ch.toNat % 256, Nat.mod_lt _ (by decide)⟩ : Fin 256))
      ++ List.replicate 32 0).take 32
  size := by
    rw [List.length_take, List.length_append, List.length_replicate]
    omega

/-- An empty sample container. -/
def sampleContainer : Container := ⟨[], [], [], []⟩

/-! ## Auxiliary definitions for the statements about the remote-repository cache -/

/-- A sequence of `generateGitArtifacts` calls on one conveyor, one call for each base
configuration: the conveyor and the events after the last call. A call that fails does not
end the sequence. -/
def generateGitArtifactsCalls (x : Ext) : List DimgBase → Conveyor → List Event →
    Conveyor × List Event
  | [], c, ev => (c, ev)
  | dimgBaseConfig :: rest, c, ev =>
    match generateGitArtifacts x dimgBaseConfig c ev with
    | (_, c1, ev1) => generateGitArtifactsCalls x rest c1 ev1

/-- Whether an event is a call of `CloneAndFetch` that succeeds, for a repository of the given
name. -/
def isSuccessfulCloneOf (x : Ext) (name : String) : Event → Bool
  | Event.cloneAndFetch repo => decide (repo.Name = name) && (x.CloneAndFetch repo).isNone
  | _ => false

/-- What a stretch of a run, which takes the conveyor `c` to the conveyor `c1` and adds the
events `evNew`, does to the remote-repository cache. -/
structure CacheStep (x : Ext) (c : Conveyor) (evNew : List Event) (c1 : Conveyor) : Prop where
  /-- No repository whose name is in the cache at the start is cloned. -/
  notCached : ∀ repo, Event.cloneAndFetch repo ∈ evNew →
    c.remoteGitRepos.lookup repo.Name = none
  /-- Every handle in the cache at the start is in the cache at the end. -/
  kept : ∀ name repo, c.remoteGitRepos.lookup name = some repo →
    c1.remoteGitRepos.lookup name = some repo
  /-- Every repository whose clone succeeds is in the cache at the end, under its name. -/
  stored : ∀ repo, Event.cloneAndFetch repo ∈ evNew → x.CloneAndFetch repo = none →
    c1.remoteGitRepos.lookup repo.Name = some repo
  /-- Every handle that is new in the cache comes from a clone that succeeded. -/
  fresh : ∀ name repo, c1.remoteGitRepos.lookup name = some repo →
    c.remoteGitRepos.lookup name = none →
    Event.cloneAndFetch repo ∈ evNew ∧ x.CloneAndFetch repo = none ∧ repo.Name = name
  /-- After a clone that succeeds, no repository of the same name is cloned. -/
  noRepeat : ∀ before after repo, evNew = before ++ Event.cloneAndFetch repo :: after →
    x.CloneAndFetch repo = none →
    ∀ repo2, Event.cloneAndFetch repo2 ∈ after → repo2.Name ≠ repo.Name
  /-- For every name at most one clone succeeds. -/
  atMostOne : ∀ name, (evNew.filter (isSuccessfulCloneOf x name)).length ≤ 1

/-- A sample base configuration with the remote git artifact lib alone. -/
def sampleLibBase (name : String) : DimgBase :=
  DimgBase.mk name "alpine" DimgPtr.nil DimgArtifactPtr.nil
    ⟨[], [⟨sampleExport, "master", "", "", "lib", "https://example.com/org/lib.git"⟩]⟩ [] ""

/-! # Theorems -/

/-! ## Stage lists -/

theorem optName_sublist (b : Bool) (n : StageName) : List.Sublist (optName b n) [n] := by
  cases b <;> simp [optName]

theorem optName_length (b : Bool) (n : StageName) :
    (optName b n).length = if b then 1 else 0 := by
  cases b <;> simp [optName]

theorem map_name_appendIfExist (stages : List Stage) (b : Bool) (n : StageName)
    (o : NewBaseStageOptions) (g : Option NewGaPatchStageOptions) :
    (appendIfExist stages (StagePkg.generate b n o g)).map Stage.Name
      = stages.map Stage.Name ++ optName b n := by
  cases b <;> simp [appendIfExist, StagePkg.generate, optName]

theorem map_name_setGitArtifacts (stages : List Stage) (gas : List GitArtifact) :
    (stages.map fun s => s.SetGitArtifacts gas).map Stage.Name = stages.map Stage.Name := by
  simp [List.map_map, Function.comp_def, Stage.SetGitArtifacts]

theorem generatedStageNames_artifact (x : Ext) (p : StagePkg) (d : DimgArtifact) (c : Conveyor)
    (ev : List Event) (h : (generateStages x p (.dimgArtifact d) c ev).1.2 = none) :
    generatedStageNames x p (.dimgArtifact d) c ev = commonStageNames p d.DimgBase := by
  revert h
  unfold generatedStageNames generateStages
  simp only [processDimgConfig]
  split
  · simp
  · split
    · simp
    · intro _
      simp only [Bool.not_true, Bool.false_eq_true, if_false, GenerateFromStage, GenerateBeforeInstallStage,
        GenerateArtifactImportBeforeInstallStage, GenerateInstallStage,
        GenerateArtifactImportAfterInstallStage, GenerateBeforeSetupStage,
        GenerateArtifactImportBeforeSetupStage, GenerateSetupStage,
        GenerateArtifactImportAfterSetupStage, GenerateDockerInstructionsStage,
        map_name_setGitArtifacts, map_name_appendIfExist, List.map_append]
      simp [commonStageNames, NewGAArchiveStage]

theorem generatedStageNames_dimg (x : Ext) (p : StagePkg) (d : Dimg) (c : Conveyor)
    (ev : List Event) (h : (generateStages x p (.dimg d) c ev).1.2 = none) :
    generatedStageNames x p (.dimg d) c ev
      = commonStageNames p d.DimgBase ++ [StageName.GAPostSetupPatch, StageName.GALatestPatch]
          ++ optName (p.hasDockerInstructions d) StageName.DockerInstructions := by
  revert h
  unfold generatedStageNames generateStages
  simp only [processDimgConfig]
  split
  · simp
  · split
    · simp
    · intro _
      simp only [Bool.not_false, if_true, GenerateFromStage, GenerateBeforeInstallStage,
        GenerateArtifactImportBeforeInstallStage, GenerateInstallStage,
        GenerateArtifactImportAfterInstallStage, GenerateBeforeSetupStage,
        GenerateArtifactImportBeforeSetupStage, GenerateSetupStage,
        GenerateArtifactImportAfterSetupStage, GenerateDockerInstructionsStage,
        map_name_setGitArtifacts, map_name_appendIfExist, List.map_append]
      simp [commonStageNames, NewGAArchiveStage, NewGAPostSetupPatchStage,
        NewGALatestPatchStage]

theorem generateStages_error_dimg_artifact (x : Ext) (p : StagePkg) (d : Dimg) (c : Conveyor)
    (ev : List Event) :
    (generateStages x p (.dimgArtifact (DimgArtifact.mk d.DimgBase)) c ev).1.2
      = (generateStages x p (.dimg d) c ev).1.2 := by
  unfold generateStages
  simp only [processDimgConfig, DimgArtifact.DimgBase]
  split
  · rfl
  · split <;> rfl

theorem commonStageNames_sublist (p : StagePkg) (b : DimgBase) :
    List.Sublist (commonStageNames p b) (stageOrder.take 10) := by
  have e : stageOrder.take 10 = [StageName.From] ++ [StageName.BeforeInstall]
      ++ [StageName.ArtifactImportBeforeInstall] ++ [StageName.GAArchive] ++ [StageName.Install]
      ++ [StageName.ArtifactImportAfterInstall] ++ [StageName.BeforeSetup]
      ++ [StageName.ArtifactImportBeforeSetup] ++ [StageName.Setup]
      ++ [StageName.ArtifactImportAfterSetup] := by rfl
  rw [e]
  unfold commonStageNames
  repeat first
    | exact optName_sublist _ _
    | exact List.Sublist.refl _
    | apply List.Sublist.append

/-- C1: when `generateStages` succeeds, the names of the stages it returns are, in order, a
subsequence of the fixed stage order, without repetition; for an artifact image they are a
subsequence of the first ten names, so none of gitPostSetupPatch, gitLatestPatch and
dockerInstructions occurs. -/
theorem generateStages_names_subsequence (x : Ext) (p : StagePkg) (dimgConfig : DimgInterface)
    (c : Conveyor) (ev : List Event) (h : (generateStages x p dimgConfig c ev).1.2 = none) :
    List.Sublist (generatedStageNames x p dimgConfig c ev) stageOrder
      ∧ (generatedStageNames x p dimgConfig c ev).Nodup
      ∧ (∀ d, dimgConfig = DimgInterface.dimgArtifact d →
          List.Sublist (generatedStageNames x p dimgConfig c ev) (stageOrder.take 10)
            ∧ StageName.GAPostSetupPatch ∉ generatedStageNames x p dimgConfig c ev
            ∧ StageName.GALatestPatch ∉ generatedStageNames x p dimgConfig c ev
            ∧ StageName.DockerInstructions ∉ generatedStageNames x p dimgConfig c ev) := by
  have hsub : List.Sublist (generatedStageNames x p dimgConfig c ev) stageOrder := by
    cases dimgConfig with
    | dimg d =>
      rw [generatedStageNames_dimg x p d c ev h]
      have e : stageOrder = stageOrder.take 10
          ++ [StageName.GAPostSetupPatch, StageName.GALatestPatch]
          ++ [StageName.DockerInstructions] := by rfl
      rw [e]
      exact ((commonStageNames_sublist p d.DimgBase).append (List.Sublist.refl _)).append
        (optName_sublist _ _)
    | dimgArtifact d =>
      rw [generatedStageNames_artifact x p d c ev h]
      exact (commonStageNames_sublist p d.DimgBase).trans (List.take_sublist 10 stageOrder)
  refine ⟨hsub, hsub.nodup (by decide), ?_⟩
  intro d hd
  subst hd
  have hten : List.Sublist (generatedStageNames x p (.dimgArtifact d) c ev)
      (stageOrder.take 10) := by
    rw [generatedStageNames_artifact x p d c ev h]
    exact commonStageNames_sublist p d.DimgBase
  refine ⟨hten, ?_, ?_, ?_⟩ <;>
  · intro hmem
    exact absurd (hten.subset hmem) (by decide)

/-- C1, at a sample artifact image with a local and a remote git artifact. -/
theorem generateStages_names_subsequence_witness :
    (generateStages sampleExt sampleStagePkg
        (DimgInterface.dimgArtifact (DimgArtifact.mk sampleBase)) sampleConveyor []).1.2 = none
      ∧ generatedStageNames sampleExt sampleStagePkg
          (DimgInterface.dimgArtifact (DimgArtifact.mk sampleBase)) sampleConveyor []
        = [StageName.GAArchive, StageName.Install, StageName.Setup]
      ∧ List.Sublist (generatedStageNames sampleExt sampleStagePkg
          (DimgInterface.dimgArtifact (DimgArtifact.mk sampleBase)) sampleConveyor [])
          stageOrder :=
  ⟨by decide, by decide,
    (generateStages_names_subsequence sampleExt sampleStagePkg
      (DimgInterface.dimgArtifact (DimgArtifact.mk sampleBase)) sampleConveyor []
      (by decide)).1⟩

/-- C2, as stated, fails: for the sample configuration, whose docker-instructions stage does
not exist, the artifact image has 3 stages and the shippable image 5, not 6. -/
theorem artifact_stages_length_counterexample :
    (generateStages sampleExt sampleStagePkg (DimgInterface.dimg (Dimg.mk sampleBase []))
        sampleConveyor []).1.2 = none
      ∧ (generateStages sampleExt sampleStagePkg
          (DimgInterface.dimgArtifact (DimgArtifact.mk sampleBase)) sampleConveyor []).1.2 = none
      ∧ (generateStages sampleExt sampleStagePkg
          (DimgInterface.dimgArtifact (DimgArtifact.mk sampleBase)) sampleConveyor []).1.1.length = 3
      ∧ (generateStages sampleExt sampleStagePkg (DimgInterface.dimg (Dimg.mk sampleBase []))
          sampleConveyor []).1.1.length = 5
      ∧ ((generateStages sampleExt sampleStagePkg
          (DimgInterface.dimgArtifact (DimgArtifact.mk sampleBase)) sampleConveyor []).1.1.length
            : Int)
        ≠ ((generateStages sampleExt sampleStagePkg (DimgInterface.dimg (Dimg.mk sampleBase []))
          sampleConveyor []).1.1.length : Int) - 3 := by
  decide

/-- C2, amended: when `generateStages` succeeds for a shippable image, its stage list is longer
than the stage list of the artifact image with the same base configuration by 3 when the
docker-instructions stage exists and by 2 when it does not. -/
theorem artifact_stages_length (x : Ext) (p : StagePkg) (d : Dimg) (c : Conveyor)
    (ev : List Event) (h : (generateStages x p (DimgInterface.dimg d) c ev).1.2 = none) :
    (generateStages x p (DimgInterface.dimgArtifact (DimgArtifact.mk d.DimgBase)) c ev).1.2 = none
      ∧ (generateStages x p (DimgInterface.dimg d) c ev).1.1.length
        = (generateStages x p (DimgInterface.dimgArtifact (DimgArtifact.mk d.DimgBase))
              c ev).1.1.length
          + (if p.hasDockerInstructions d then 3 else 2) := by
  have ha : (generateStages x p (DimgInterface.dimgArtifact (DimgArtifact.mk d.DimgBase))
      c ev).1.2 = none := by
    rw [generateStages_error_dimg_artifact]; exact h
  refine ⟨ha, ?_⟩
  have h1 := congrArg List.length (generatedStageNames_dimg x p d c ev h)
  have h2 := congrArg List.length
    (generatedStageNames_artifact x p (DimgArtifact.mk d.DimgBase) c ev ha)
  simp only [generatedStageNames, List.length_map, List.length_append, optName_length,
    DimgArtifact.DimgBase, List.length_cons, List.length_nil] at h1 h2
  rw [h1, h2]
  cases p.hasDockerInstructions d <;> simp

/-- C2 amended, at the sample configuration. -/
theorem artifact_stages_length_witness :
    (generateStages sampleExt sampleStagePkg (DimgInterface.dimg (Dimg.mk sampleBase []))
        sampleConveyor []).1.2 = none
      ∧ (generateStages sampleExt sampleStagePkg (DimgInterface.dimg (Dimg.mk sampleBase []))
          sampleConveyor []).1.1.length
        = (generateStages sampleExt sampleStagePkg
            (DimgInterface.dimgArtifact (DimgArtifact.mk (Dimg.mk sampleBase []).DimgBase))
            sampleConveyor []).1.1.length
          + (if sampleStagePkg.hasDockerInstructions (Dimg.mk sampleBase []) then 3 else 2) :=
  ⟨by decide,
    (artifact_stages_length sampleExt sampleStagePkg (Dimg.mk sampleBase []) sampleConveyor []
      (by decide)).2⟩

/-! ## Image selection and build order -/

theorem isNotInArr_iff (arr : List DimgInterface) (obj : DimgInterface) :
    isNotInArr arr obj = true ↔ obj ∉ arr := by
  induction arr with
  | nil => simp [isNotInArr]
  | cons elm rest ih =>
    unfold isNotInArr
    by_cases h : elm = obj
    · simp [h]
    · simp [h, ih, Ne.symm h]

theorem appendIfNotInArr_of_mem {acc : List DimgInterface} {e : DimgInterface} (h : e ∈ acc) :
    appendIfNotInArr acc e = acc := by
  have : ¬ isNotInArr acc e = true := by rw [isNotInArr_iff]; exact not_not.mpr h
  simp [appendIfNotInArr, this]

theorem appendIfNotInArr_of_not_mem {acc : List DimgInterface} {e : DimgInterface}
    (h : e ∉ acc) : appendIfNotInArr acc e = acc ++ [e] := by
  have : isNotInArr acc e = true := (isNotInArr_iff acc e).mpr h
  simp [appendIfNotInArr, this]

theorem foldl_appendIfNotInArr_nodup (l : List DimgInterface) :
    ∀ acc : List DimgInterface, acc.Nodup → (l.foldl appendIfNotInArr acc).Nodup := by
  induction l with
  | nil => intro acc h; simpa using h
  | cons e t ih =>
    intro acc h
    rw [List.foldl_cons]
    by_cases he : e ∈ acc
    · rw [appendIfNotInArr_of_mem he]; exact ih acc h
    · rw [appendIfNotInArr_of_not_mem he]
      apply ih
      rw [List.nodup_append]
      refine ⟨h, List.nodup_singleton e, ?_⟩
      intro a ha hb
      simp at hb
      subst hb
      exact he ha

theorem mem_foldl_appendIfNotInArr (l : List DimgInterface) :
    ∀ (acc : List DimgInterface) (a : DimgInterface),
      a ∈ l.foldl appendIfNotInArr acc ↔ a ∈ acc ∨ a ∈ l := by
  induction l with
  | nil => intro acc a; simp
  | cons e t ih =>
    intro acc a
    rw [List.foldl_cons]
    by_cases he : e ∈ acc
    · rw [appendIfNotInArr_of_mem he, ih]
      constructor
      · rintro (h | h)
        · exact Or.inl h
        · exact Or.inr (List.mem_cons_of_mem _ h)
      · rintro (h | h)
        · exact Or.inl h
        · rcases List.mem_cons.mp h with h | h
          · subst h; exact Or.inl he
          · exact Or.inr h
    · rw [appendIfNotInArr_of_not_mem he, ih]
      simp [List.mem_append, or_assoc]

theorem foldl_appendIfNotInArr_sublist (l : List DimgInterface) :
    ∀ acc : List DimgInterface, List.Sublist (l.foldl appendIfNotInArr acc) (acc ++ l) := by
  induction l with
  | nil => intro acc; simp
  | cons e t ih =>
    intro acc
    rw [List.foldl_cons]
    by_cases he : e ∈ acc
    · rw [appendIfNotInArr_of_mem he]
      exact (ih acc).trans
        (List.Sublist.append (List.Sublist.refl acc) (List.sublist_cons_self e t))
    · rw [appendIfNotInArr_of_not_mem he]
      have := ih (acc ++ [e])
      simpa using this

theorem indexOf_foldl_appendIfNotInArr (l : List DimgInterface) :
    ∀ (acc : List DimgInterface) (a b : DimgInterface),
      (l.foldl appendIfNotInArr acc).indexOf a < (l.foldl appendIfNotInArr acc).indexOf b
        ↔ (acc ++ l).indexOf a < (acc ++ l).indexOf b := by
  induction l with
  | nil => intro acc a b; simp
  | cons e t ih =>
    intro acc a b
    rw [List.foldl_cons]
    by_cases he : e ∈ acc
    · rw [appendIfNotInArr_of_mem he, ih]
      have key : ∀ z : DimgInterface,
          (z ∈ acc ∧ (acc ++ e :: t).indexOf z = (acc ++ t).indexOf z
              ∧ (acc ++ t).indexOf z < acc.length)
            ∨ (z ∉ acc ∧ (acc ++ e :: t).indexOf z = (acc ++ t).indexOf z + 1
              ∧ acc.length ≤ (acc ++ t).indexOf z) := by
        intro z
        by_cases hz : z ∈ acc
        · left
          refine ⟨hz, ?_, ?_⟩
          · rw [List.indexOf_append_of_mem hz, List.indexOf_append_of_mem hz]
          · rw [List.indexOf_append_of_mem hz]; exact List.indexOf_lt_length.mpr hz
        · right
          have hne : e ≠ z := fun h => hz (h ▸ he)
          refine ⟨hz, ?_, ?_⟩
          · rw [List.indexOf_append_of_not_mem hz, List.indexOf_append_of_not_mem hz,
              List.indexOf_cons_ne _ hne]
            omega
          · rw [List.indexOf_append_of_not_mem hz]; omega
      rcases key a with ⟨_, ha1, ha2⟩ | ⟨_, ha1, ha2⟩ <;>
      rcases key b with ⟨_, hb1, hb2⟩ | ⟨_, hb1, hb2⟩ <;> omega
    · rw [appendIfNotInArr_of_not_mem he, ih]
      simp


theorem getDimgConfigsInOrder_eq_foldl (x : Ext) (dappfile : List Dimg) (c : Conveyor)
    (ev : List Event) :
    (getDimgConfigsInOrder x dappfile c ev).1
      = (selectedTrees x dappfile c ev).foldl appendIfNotInArr [] := by
  simp only [getDimgConfigsInOrder, selectedTrees, List.foldl_flatten, List.foldl_map]

theorem indexOf_flatten_lt (a b : DimgInterface) (L : List (List DimgInterface))
    (h : ∀ T ∈ L, a ∈ T → b ∈ T ∧ T.indexOf b < T.indexOf a) (ha : a ∈ L.flatten) :
    L.flatten.indexOf b < L.flatten.indexOf a := by
  induction L with
  | nil => simp at ha
  | cons T Ts ih =>
    rw [List.flatten_cons] at ha ⊢
    by_cases haT : a ∈ T
    · obtain ⟨hbT, hlt⟩ := h T (List.mem_cons_self _ _) haT
      rw [List.indexOf_append_of_mem haT, List.indexOf_append_of_mem hbT]
      exact hlt
    · have haTs : a ∈ Ts.flatten := by
        rcases List.mem_append.mp ha with h1 | h1
        · exact absurd h1 haT
        · exact h1
      have ih1 := ih (fun U hU => h U (List.mem_cons_of_mem _ hU)) haTs
      rw [List.indexOf_append_of_not_mem haT]
      by_cases hbT : b ∈ T
      · rw [List.indexOf_append_of_mem hbT]
        have := List.indexOf_lt_length.mpr hbT
        omega
      · rw [List.indexOf_append_of_not_mem hbT]
        omega

theorem getDimgConfigByName_eq_find (dappfile : List Dimg) (name : String) :
    getDimgConfigByName dappfile name = dappfile.find? fun d => decide (d.Name = name) := by
  induction dappfile with
  | nil => rfl
  | cons d rest ih =>
    unfold getDimgConfigByName
    by_cases h : d.Name = name
    · simp [h]
    · simp [h, ih]

theorem dimgNamesLoop_eq (dappfile : List Dimg) (names : List String) :
    ∀ (acc : List Dimg) (ev : List Event),
      dimgNamesLoop dappfile names acc ev
        = (acc ++ names.filterMap (getDimgConfigByName dappfile),
            ev ++ (names.filter fun n => (getDimgConfigByName dappfile n).isNone).map
              fun n => Event.warning (unknownDimgWarning n)) := by
  induction names with
  | nil => intro acc ev; simp [dimgNamesLoop]
  | cons n rest ih =>
    intro acc ev
    unfold dimgNamesLoop
    cases hn : getDimgConfigByName dappfile n with
    | none => simp [ih, hn, List.filterMap_cons]
    | some d => simp [ih, hn, List.filterMap_cons]

theorem mem_getDimgConfigsInOrder (x : Ext) (dappfile : List Dimg) (c : Conveyor)
    (ev : List Event) (e : DimgInterface) :
    e ∈ (getDimgConfigsInOrder x dappfile c ev).1 ↔ e ∈ selectedTrees x dappfile c ev := by
  rw [getDimgConfigsInOrder_eq_foldl, mem_foldl_appendIfNotInArr]
  simp

theorem indexOf_getDimgConfigsInOrder (x : Ext) (dappfile : List Dimg) (c : Conveyor)
    (ev : List Event) (a b : DimgInterface) :
    (getDimgConfigsInOrder x dappfile c ev).1.indexOf a
        < (getDimgConfigsInOrder x dappfile c ev).1.indexOf b
      ↔ (selectedTrees x dappfile c ev).indexOf a < (selectedTrees x dappfile c ev).indexOf b := by
  rw [getDimgConfigsInOrder_eq_foldl]
  simpa using indexOf_foldl_appendIfNotInArr (selectedTrees x dappfile c ev) [] a b

/-- C3: `getDimgConfigsInOrder` returns the concatenation of the selected images' `DimgTree`
lists with every entry equal to an earlier one removed: the result has no two equal entries,
contains every entry of every selected tree (and nothing else), is a subsequence of the
concatenation, and orders its entries as their first occurrences in the concatenation are
ordered. -/
theorem getDimgConfigsInOrder_first_occurrences (x : Ext) (dappfile : List Dimg) (c : Conveyor)
    (ev : List Event) :
    (getDimgConfigsInOrder x dappfile c ev).1.Nodup
      ∧ (∀ d ∈ (getDimgConfigToProcess dappfile c ev).1, ∀ e ∈ x.DimgTree d,
          e ∈ (getDimgConfigsInOrder x dappfile c ev).1)
      ∧ (∀ e, e ∈ (getDimgConfigsInOrder x dappfile c ev).1 ↔ e ∈ selectedTrees x dappfile c ev)
      ∧ List.Sublist (getDimgConfigsInOrder x dappfile c ev).1 (selectedTrees x dappfile c ev)
      ∧ (∀ a b,
          (getDimgConfigsInOrder x dappfile c ev).1.indexOf a
              < (getDimgConfigsInOrder x dappfile c ev).1.indexOf b
            ↔ (selectedTrees x dappfile c ev).indexOf a
              < (selectedTrees x dappfile c ev).indexOf b) := by
  refine ⟨?_, ?_, mem_getDimgConfigsInOrder x dappfile c ev, ?_,
    indexOf_getDimgConfigsInOrder x dappfile c ev⟩
  · rw [getDimgConfigsInOrder_eq_foldl]
    exact foldl_appendIfNotInArr_nodup _ [] List.nodup_nil
  · intro d hd e he
    rw [mem_getDimgConfigsInOrder]
    unfold selectedTrees
    exact List.mem_flatten.mpr ⟨x.DimgTree d, List.mem_map.mpr ⟨d, hd, rfl⟩, he⟩
  · rw [getDimgConfigsInOrder_eq_foldl]
    simpa using foldl_appendIfNotInArr_sublist (selectedTrees x dappfile c ev) []

/-- C4: if every selected `DimgTree` list contains, for each image in it whose base is
another image, that base at a smaller index, then in the list returned by
`getDimgConfigsInOrder` every image whose base is another image stands at a strictly larger
index than that base. -/
theorem getDimgConfigsInOrder_base_first (x : Ext) (dappfile : List Dimg) (c : Conveyor)
    (ev : List Event)
    (htree : ∀ d ∈ (getDimgConfigToProcess dappfile c ev).1, ∀ img ∈ x.DimgTree d,
      ∀ base, baseDimgConfig img = some base →
        base ∈ x.DimgTree d ∧ (x.DimgTree d).indexOf base < (x.DimgTree d).indexOf img)
    (img : DimgInterface) (himg : img ∈ (getDimgConfigsInOrder x dappfile c ev).1)
    (base : DimgInterface) (hbase : baseDimgConfig img = some base) :
    (getDimgConfigsInOrder x dappfile c ev).1.indexOf base
        < (getDimgConfigsInOrder x dappfile c ev).1.indexOf img
      ∧ (getDimgConfigsInOrder x dappfile c ev).1.get?
          ((getDimgConfigsInOrder x dappfile c ev).1.indexOf base) = some base
      ∧ (getDimgConfigsInOrder x dappfile c ev).1.get?
          ((getDimgConfigsInOrder x dappfile c ev).1.indexOf img) = some img := by
  have himg1 : img ∈ selectedTrees x dappfile c ev :=
    (mem_getDimgConfigsInOrder x dappfile c ev img).mp himg
  have hlt : (selectedTrees x dappfile c ev).indexOf base
      < (selectedTrees x dappfile c ev).indexOf img := by
    apply indexOf_flatten_lt img base _ _ himg1
    intro T hT hmem
    obtain ⟨d, hd, rfl⟩ := List.mem_map.mp hT
    exact htree d hd img hmem base hbase
  have hlt1 := (indexOf_getDimgConfigsInOrder x dappfile c ev base img).mpr hlt
  have hbmem : base ∈ (getDimgConfigsInOrder x dappfile c ev).1 :=
    List.indexOf_lt_length.mp (lt_of_lt_of_le hlt1 List.indexOf_le_length)
  exact ⟨hlt1, List.indexOf_get? hbmem, List.indexOf_get? himg⟩

/-- C5: `getDimgConfigToProcess` is a total function without an error result. With no
requested names it returns the dappfile unchanged and logs nothing; otherwise it returns, in
request order, the first configured image of each requested name that is configured, and logs
one warning for each requested name that is not. -/
theorem getDimgConfigToProcess_selection (dappfile : List Dimg) (c : Conveyor)
    (ev : List Event) :
    getDimgConfigToProcess dappfile c ev
      = if c.dimgNamesToProcess = [] then (dappfile, ev)
        else
          (c.dimgNamesToProcess.filterMap fun name =>
              dappfile.find? fun dimg => decide (dimg.Name = name),
            ev ++ (c.dimgNamesToProcess.filter fun name =>
                (dappfile.find? fun dimg => decide (dimg.Name = name)).isNone).map
              fun name => Event.warning (unknownDimgWarning name)) := by
  unfold getDimgConfigToProcess
  by_cases h : c.dimgNamesToProcess = []
  · simp [h]
  · have h1 : ¬ c.dimgNamesToProcess.length = 0 := by
      simpa [List.length_eq_zero] using h
    rw [if_neg h1, if_neg h, dimgNamesLoop_eq]
    simp only [List.nil_append]
    have e : getDimgConfigByName dappfile
        = fun name => dappfile.find? fun dimg => decide (dimg.Name = name) := by
      funext name; exact getDimgConfigByName_eq_find dappfile name
    rw [e]


theorem sampleTree_ordered (name : String) (hname : name = "web" ∨ name = "worker") :
    ∀ img ∈ sampleTreeExt.DimgTree (sampleApp name), ∀ base, baseDimgConfig img = some base →
      base ∈ sampleTreeExt.DimgTree (sampleApp name)
        ∧ (sampleTreeExt.DimgTree (sampleApp name)).indexOf base
          < (sampleTreeExt.DimgTree (sampleApp name)).indexOf img := by
  have ht : sampleTreeExt.DimgTree (sampleApp name)
      = [DimgInterface.dimg sampleBaseImage, DimgInterface.dimg (sampleApp name)] := rfl
  have hb0 : baseDimgConfig (DimgInterface.dimg sampleBaseImage) = none := by decide
  have hb1 : baseDimgConfig (DimgInterface.dimg (sampleApp name))
      = some (DimgInterface.dimg sampleBaseImage) := rfl
  have hne : DimgInterface.dimg sampleBaseImage ≠ DimgInterface.dimg (sampleApp name) := by
    rcases hname with rfl | rfl <;> decide
  intro img himg base hbase
  rw [ht] at himg ⊢
  simp only [List.mem_cons, List.mem_singleton, List.not_mem_nil, or_false] at himg
  rcases himg with rfl | rfl
  · rw [hb0] at hbase; exact absurd hbase (by simp)
  · rw [hb1] at hbase
    have hbase1 : DimgInterface.dimg sampleBaseImage = base := Option.some.inj hbase
    subst hbase1
    refine ⟨List.mem_cons_self _ _, ?_⟩
    rw [List.indexOf_cons_self, List.indexOf_cons_ne _ hne, List.indexOf_cons_self]
    exact Nat.zero_lt_one

theorem sampleTrees_ordered :
    ∀ d ∈ (getDimgConfigToProcess sampleDappfile sampleRequest []).1,
      ∀ img ∈ sampleTreeExt.DimgTree d, ∀ base, baseDimgConfig img = some base →
        base ∈ sampleTreeExt.DimgTree d
          ∧ (sampleTreeExt.DimgTree d).indexOf base < (sampleTreeExt.DimgTree d).indexOf img := by
  have hsel : (getDimgConfigToProcess sampleDappfile sampleRequest []).1
      = [sampleApp "web", sampleApp "worker"] := by decide
  rw [hsel]
  intro d hd
  simp only [List.mem_cons, List.mem_singleton, List.not_mem_nil, or_false] at hd
  rcases hd with rfl | rfl
  · exact sampleTree_ordered "web" (Or.inl rfl)
  · exact sampleTree_ordered "worker" (Or.inr rfl)

/-- C4, at the sample dappfile: two requested images share the base image, which comes first. -/
theorem getDimgConfigsInOrder_base_first_witness :
    (getDimgConfigsInOrder sampleTreeExt sampleDappfile sampleRequest []).1
        = [DimgInterface.dimg sampleBaseImage, DimgInterface.dimg (sampleApp "web"),
            DimgInterface.dimg (sampleApp "worker")]
      ∧ baseDimgConfig (DimgInterface.dimg (sampleApp "worker"))
        = some (DimgInterface.dimg sampleBaseImage)
      ∧ (getDimgConfigsInOrder sampleTreeExt sampleDappfile sampleRequest []).1.indexOf
          (DimgInterface.dimg sampleBaseImage)
        < (getDimgConfigsInOrder sampleTreeExt sampleDappfile sampleRequest []).1.indexOf
          (DimgInterface.dimg (sampleApp "worker")) :=
  ⟨by decide, by decide,
    (getDimgConfigsInOrder_base_first sampleTreeExt sampleDappfile sampleRequest []
      sampleTrees_ordered (DimgInterface.dimg (sampleApp "worker")) (by decide)
      (DimgInterface.dimg sampleBaseImage) (by decide)).1⟩

/-! ## Remote URL schemes -/

theorem urlScheme_of_error (x : Ext) (urlString : String) (err : GoError)
    (hparse : x.urlParse urlString = .error err) :
    urlScheme x urlString
      = if stringsHasEnding err.msg "first path segment in URL cannot contain colon" = true
            ∧ (stringsHasStart urlString "git@" = true ∨ stringsHasStart urlString "ssh@" = true)
        then ("ssh", none) else ("", some err) := by
  have e1 : "git" ++ "@" = "git@" := by decide
  have e2 : "ssh" ++ "@" = "ssh@" := by decide
  unfold urlScheme
  rw [hparse]
  simp only [List.any_cons, List.any_nil, Bool.or_false, e1, e2, Bool.or_eq_true]
  by_cases h1 : stringsHasEnding err.msg "first path segment in URL cannot contain colon" = true
  · by_cases h2 : stringsHasStart urlString "git@" = true ∨ stringsHasStart urlString "ssh@" = true
    · simp [h1, h2]
    · simp [h1, h2]
  · simp [h1]

/-- C6: a URL string that begins with "git@" or "ssh@" and that `url.Parse` rejects with an
error ending in "first path segment in URL cannot contain colon" has scheme "ssh", without
error. -/
theorem urlScheme_ssh (x : Ext) (urlString : String) (err : GoError)
    (hparse : x.urlParse urlString = .error err)
    (hcolon : stringsHasEnding err.msg "first path segment in URL cannot contain colon" = true)
    (hstart : stringsHasStart urlString "git@" = true ∨ stringsHasStart urlString "ssh@" = true) :
    urlScheme x urlString = ("ssh", none) := by
  rw [urlScheme_of_error x urlString err hparse, if_pos ⟨hcolon, hstart⟩]

/-- C6, at the URL of the spec's scenario B. -/
theorem urlScheme_ssh_witness :
    sampleUrlExt.urlParse "git@github.com:org/repo.git"
        = .error ⟨"parse \"git@github.com:org/repo.git\": "
            ++ "first path segment in URL cannot contain colon"⟩
      ∧ urlScheme sampleUrlExt "git@github.com:org/repo.git" = ("ssh", none) :=
  ⟨by decide,
    urlScheme_ssh sampleUrlExt "git@github.com:org/repo.git"
      ⟨"parse \"git@github.com:org/repo.git\": "
        ++ "first path segment in URL cannot contain colon"⟩
      (by decide) (by decide) (Or.inl (by decide))⟩

/-- C7, as stated, fails: `url.Parse` rejects "deploy@example.com:org/repo.git" for the colon
in its first path segment, and `urlScheme` returns that error, not the scheme "ssh". -/
theorem urlScheme_other_user_counterexample :
    sampleUrlExt.urlParse "deploy@example.com:org/repo.git"
        = .error ⟨"parse \"deploy@example.com:org/repo.git\": "
            ++ "first path segment in URL cannot contain colon"⟩
      ∧ urlScheme sampleUrlExt "deploy@example.com:org/repo.git"
        = ("", some ⟨"parse \"deploy@example.com:org/repo.git\": "
            ++ "first path segment in URL cannot contain colon"⟩)
      ∧ urlScheme sampleUrlExt "deploy@example.com:org/repo.git" ≠ ("ssh", none) := by
  decide

/-- C7, amended: for a URL string that `url.Parse` rejects with an error ending in "first path
segment in URL cannot contain colon", `urlScheme` returns the scheme "ssh" without error
exactly when the string begins with "git@" or "ssh@"; for any other user name it returns the
parse error with an empty scheme. -/
theorem urlScheme_ssh_iff (x : Ext) (urlString : String) (err : GoError)
    (hparse : x.urlParse urlString = .error err)
    (hcolon : stringsHasEnding err.msg "first path segment in URL cannot contain colon" = true) :
    (urlScheme x urlString = ("ssh", none)
        ↔ (stringsHasStart urlString "git@" = true ∨ stringsHasStart urlString "ssh@" = true))
      ∧ (¬ (stringsHasStart urlString "git@" = true ∨ stringsHasStart urlString "ssh@" = true)
          → urlScheme x urlString = ("", some err)) := by
  rw [urlScheme_of_error x urlString err hparse]
  by_cases h : stringsHasStart urlString "git@" = true ∨ stringsHasStart urlString "ssh@" = true
  · simp [hcolon, h]
  · simp [hcolon, h]

/-- C7 amended, at the URL of the counterexample. -/
theorem urlScheme_ssh_iff_witness :
    urlScheme sampleUrlExt "deploy@example.com:org/repo.git"
      = ("", some ⟨"parse \"deploy@example.com:org/repo.git\": "
          ++ "first path segment in URL cannot contain colon"⟩) :=
  (urlScheme_ssh_iff sampleUrlExt "deploy@example.com:org/repo.git"
    ⟨"parse \"deploy@example.com:org/repo.git\": "
      ++ "first path segment in URL cannot contain colon"⟩
    (by decide) (by decide)).2 (by decide)

/-- C8: when `url.Parse` rejects a URL string and the error is not the first-path-segment
colon error, or the string begins with neither "git@" nor "ssh@", `urlScheme` returns that
error with an empty scheme and `getRemoteGitRepoClonePath` returns the same error with an
empty clone path; when `url.Parse` accepts the string, `urlScheme` returns the parsed scheme
without error. -/
theorem urlScheme_parse_error (x : Ext) (urlString : String) :
    (∀ err, x.urlParse urlString = .error err →
        (stringsHasEnding err.msg "first path segment in URL cannot contain colon" = false
          ∨ (stringsHasStart urlString "git@" = false
              ∧ stringsHasStart urlString "ssh@" = false)) →
        urlScheme x urlString = ("", some err)
          ∧ ∀ (remoteGaConfig : GitRemote) (c : Conveyor), remoteGaConfig.Url = urlString →
              getRemoteGitRepoClonePath x remoteGaConfig c = ("", some err))
      ∧ (∀ u, x.urlParse urlString = .ok u → urlScheme x urlString = (u.Scheme, none)) := by
  refine ⟨?_, ?_⟩
  · intro err hparse hnot
    have hs : urlScheme x urlString = ("", some err) := by
      rw [urlScheme_of_error x urlString err hparse]
      rcases hnot with h | ⟨h1, h2⟩
      · simp [h]
      · simp [h1, h2]
    refine ⟨hs, ?_⟩
    intro remoteGaConfig c hurl
    unfold getRemoteGitRepoClonePath
    rw [hurl, hs]
  · intro u hparse
    unfold urlScheme
    rw [hparse]


/-- C8, at a URL with an empty scheme before the colon and at an https URL. -/
theorem urlScheme_parse_error_witness :
    urlScheme sampleUrlExt ":foo" = ("", some ⟨"parse \":foo\": missing protocol scheme"⟩)
      ∧ urlScheme sampleUrlExt "https://example.com/org/lib.git" = ("https", none) :=
  ⟨((urlScheme_parse_error sampleUrlExt ":foo").1
      ⟨"parse \":foo\": missing protocol scheme"⟩ (by decide) (Or.inl (by decide))).1,
    (urlScheme_parse_error sampleUrlExt "https://example.com/org/lib.git").2 ⟨"https"⟩
      (by decide)⟩

/-! ## Dependencies of the post-setup patch stage -/

theorem wrap64_of_inRange (n : Int) (h1 : -(2 ^ 63) ≤ n) (h2 : n < 2 ^ 63) : wrap64 n = n := by
  unfold wrap64
  omega

theorem wrap64_wrap64_add (a b : Int) : wrap64 (wrap64 a + b) = wrap64 (a + b) := by
  unfold wrap64
  omega

theorem patchSizeSum_cons (x : Ext) (prevImage : Image) (ga : GitArtifact)
    (rest : List GitArtifact) :
    patchSizeSum x prevImage (ga :: rest)
      = (if recordedCommitExists x prevImage ga then
            (x.PatchSize ga (recordedCommit x prevImage ga)).1 else 0)
          + patchSizeSum x prevImage rest := by
  unfold patchSizeSum
  by_cases h : recordedCommitExists x prevImage ga = true
  · simp [List.filter_cons, h]
  · simp [List.filter_cons, h]

theorem patchSizeLoop_eq (x : Ext) (prevImage : Image) (gas : List GitArtifact) :
    ∀ (size : Int) (ev : List Event),
      (∀ ga ∈ gas, recordedCommit x prevImage ga ≠ "" →
        (x.IsCommitExists ga.GitRepo (recordedCommit x prevImage ga)).2 = none
          ∧ ((x.IsCommitExists ga.GitRepo (recordedCommit x prevImage ga)).1 = true →
              (x.PatchSize ga (recordedCommit x prevImage ga)).2 = none)) →
      wrap64 size = size →
      patchSizeLoop x prevImage gas size ev
        = ((wrap64 (size + patchSizeSum x prevImage gas), none),
            ev ++ gas.flatMap (patchSizeCalls x prevImage)) := by
  induction gas with
  | nil =>
    intro size ev _ hsize
    simp [patchSizeLoop, patchSizeSum, hsize]
  | cons ga rest ih =>
    intro size ev hok hsize
    have hrest := fun ga1 h => hok ga1 (List.mem_cons_of_mem _ h)
    have hga := hok ga (List.mem_cons_self _ _)
    rw [patchSizeSum_cons, List.flatMap_cons]
    unfold patchSizeLoop
    by_cases hc : recordedCommit x prevImage ga = ""
    · have hc1 : x.GetGACommitFromImageLabels ga prevImage = "" := hc
      simp [hc1, recordedCommitExists, patchSizeCalls, hc, ih size ev hrest hsize]
    · have hc1 : x.GetGACommitFromImageLabels ga prevImage ≠ "" := hc
      obtain ⟨he, hp⟩ := hga hc
      rcases hex : x.IsCommitExists ga.GitRepo (recordedCommit x prevImage ga) with ⟨exist, e⟩
      rw [hex] at he hp
      simp only at he hp
      subst he
      have hex1 : x.IsCommitExists ga.GitRepo (x.GetGACommitFromImageLabels ga prevImage)
          = (exist, none) := hex
      cases exist with
      | false =>
        have hih := ih size
          (ev ++ [Event.isCommitExists ga (x.GetGACommitFromImageLabels ga prevImage)])
          hrest hsize
        simp only [recordedCommit] at hex
        simp [hc1, hex1, recordedCommitExists, patchSizeCalls, hex, hih, recordedCommit]
      | true =>
        have hp1 := hp rfl
        rcases hps : x.PatchSize ga (recordedCommit x prevImage ga) with ⟨patchSize, e⟩
        rw [hps] at hp1
        simp only at hp1
        subst hp1
        have hps1 : x.PatchSize ga (x.GetGACommitFromImageLabels ga prevImage)
            = (patchSize, none) := hps
        have hw : wrap64 (wrap64 (size + patchSize)) = wrap64 (size + patchSize) := by
          unfold wrap64; omega
        have hih := ih (wrap64 (size + patchSize))
          (ev ++ [Event.isCommitExists ga (recordedCommit x prevImage ga),
            Event.patchSize ga (recordedCommit x prevImage ga)]) hrest hw
        have hsum : wrap64 (wrap64 (size + patchSize) + patchSizeSum x prevImage rest)
            = wrap64 (size + (patchSize + patchSizeSum x prevImage rest)) := by
          rw [wrap64_wrap64_add, add_assoc]
        simp only [recordedCommit] at hih hps hex
        simp [hc1, hex1, hps1, recordedCommitExists, patchSizeCalls, hex, hps, hih, hsum,
          recordedCommit]


/-- C9: when no git operation that is carried out fails, `GetDependencies` returns the hash
of `string(S / 1048576)`, where `S` is the `int64` sum of `PatchSize` over exactly the git
artifacts whose commit recorded in the previous image is non-empty and still exists (the
plain sum when that fits an `int64`); the calls made are those of `patchSizeCalls`, so an
artifact without such a commit is never asked for its patch size, and a failing `PatchSize`
for it cannot make the call fail. -/
theorem GetDependencies_patchSizeSum (x : Ext) (s : Stage) (prevImage : Image) (ev : List Event)
    (hok : ∀ ga ∈ s.gitArtifacts, recordedCommit x prevImage ga ≠ "" →
      (x.IsCommitExists ga.GitRepo (recordedCommit x prevImage ga)).2 = none
        ∧ ((x.IsCommitExists ga.GitRepo (recordedCommit x prevImage ga)).1 = true →
            (x.PatchSize ga (recordedCommit x prevImage ga)).2 = none)) :
    (GetDependencies x s prevImage ev).1
        = (x.Sha256Hash [goStringOfInt64
            (Int.tdiv (wrap64 (patchSizeSum x prevImage s.gitArtifacts)) 1048576)], none)
      ∧ (-(2 ^ 63) ≤ patchSizeSum x prevImage s.gitArtifacts
          ∧ patchSizeSum x prevImage s.gitArtifacts < 2 ^ 63 →
          (GetDependencies x s prevImage ev).1
            = (x.Sha256Hash [goStringOfInt64
                (Int.tdiv (patchSizeSum x prevImage s.gitArtifacts) 1048576)], none))
      ∧ (GetDependencies x s prevImage ev).2
          = ev ++ s.gitArtifacts.flatMap (patchSizeCalls x prevImage)
      ∧ (∀ ga commit, recordedCommitExists x prevImage ga = false →
          Event.patchSize ga commit ∉ s.gitArtifacts.flatMap (patchSizeCalls x prevImage)) := by
  have hloop := patchSizeLoop_eq x prevImage s.gitArtifacts 0 ev hok (by decide)
  rw [zero_add] at hloop
  have hstep : patchSizeStep = 1048576 := by decide
  have h1 : (GetDependencies x s prevImage ev).1
      = (x.Sha256Hash [goStringOfInt64
          (Int.tdiv (wrap64 (patchSizeSum x prevImage s.gitArtifacts)) 1048576)], none) := by
    unfold GetDependencies
    rw [hloop, hstep]
  refine ⟨h1, ?_, ?_, ?_⟩
  · rintro ⟨hlo, hhi⟩
    rw [h1, wrap64_of_inRange _ hlo hhi]
  · unfold GetDependencies
    rw [hloop]
  · intro ga commit hsel hmem
    obtain ⟨ga1, _, hev⟩ := List.mem_flatMap.mp hmem
    unfold patchSizeCalls at hev
    split_ifs at hev with hc hex
    · simp at hev
    · simp only [List.mem_cons, List.mem_singleton, List.not_mem_nil, or_false] at hev
      rcases hev with hev | hev
      · cases hev
      · injection hev with hga hcommit
        subst hga
        simp [recordedCommitExists, hc, hex] at hsel
    · simp at hev

/-- C9, at the sample stage: only the artifacts a and d are asked for their patch size,
1500000 + 700000 bytes, which is bucket 2. -/
theorem GetDependencies_patchSizeSum_witness :
    (GetDependencies sampleExt samplePatchStage samplePrevImage []).1
        = (sampleExt.Sha256Hash [goStringOfInt64 2], none)
      ∧ (GetDependencies sampleExt samplePatchStage samplePrevImage []).2
        = [Event.isCommitExists (sampleArtifact "a") "c1", Event.patchSize (sampleArtifact "a") "c1",
            Event.isCommitExists (sampleArtifact "c") "gone",
            Event.isCommitExists (sampleArtifact "d") "c2",
            Event.patchSize (sampleArtifact "d") "c2"]
      ∧ (GetDependencies sampleExt samplePatchStage samplePrevImage []).1
        = (sampleExt.Sha256Hash [goStringOfInt64
            (Int.tdiv (wrap64 (patchSizeSum sampleExt samplePrevImage
              samplePatchStage.gitArtifacts)) 1048576)], none) :=
  ⟨by decide, by decide,
    (GetDependencies_patchSizeSum sampleExt samplePatchStage samplePrevImage []
      (by decide)).1⟩

/-- C10: two runs of `GetDependencies` whose accumulated sizes are non-negative and fall into
the same bucket of 1048576 bytes return the same dependency string, without error; the bucket
size `patchSizeStep` is 1024 * 1024 = 1048576. -/
theorem GetDependencies_same_bucket (x1 x2 : Ext) (s1 s2 : Stage) (prevImage1 prevImage2 : Image)
    (ev1 ev2 : List Event) (size1 size2 : Int)
    (hhash : x1.Sha256Hash = x2.Sha256Hash)
    (h1 : (patchSizeLoop x1 prevImage1 s1.gitArtifacts 0 ev1).1 = (size1, none))
    (h2 : (patchSizeLoop x2 prevImage2 s2.gitArtifacts 0 ev2).1 = (size2, none))
    (hsize1 : 0 ≤ size1) (hsize2 : 0 ≤ size2)
    (hbucket : size1 / 1048576 = size2 / 1048576) :
    (GetDependencies x1 s1 prevImage1 ev1).1 = (GetDependencies x2 s2 prevImage2 ev2).1
      ∧ (GetDependencies x1 s1 prevImage1 ev1).1.2 = none
      ∧ patchSizeStep = 1024 * 1024
      ∧ patchSizeStep = 1048576 := by
  have hstep : patchSizeStep = 1048576 := by decide
  have e1 : (GetDependencies x1 s1 prevImage1 ev1).1
      = (x1.Sha256Hash [goStringOfInt64 (size1 / 1048576)], none) := by
    unfold GetDependencies
    rcases hl : patchSizeLoop x1 prevImage1 s1.gitArtifacts 0 ev1 with ⟨⟨sz, e⟩, ev3⟩
    rw [hl] at h1
    simp only [Prod.mk.injEq] at h1
    obtain ⟨rfl, rfl⟩ := h1
    simp only [hstep]
    rw [Int.tdiv_eq_ediv hsize1 (by decide)]
  have e2 : (GetDependencies x2 s2 prevImage2 ev2).1
      = (x2.Sha256Hash [goStringOfInt64 (size2 / 1048576)], none) := by
    unfold GetDependencies
    rcases hl : patchSizeLoop x2 prevImage2 s2.gitArtifacts 0 ev2 with ⟨⟨sz, e⟩, ev3⟩
    rw [hl] at h2
    simp only [Prod.mk.injEq] at h2
    obtain ⟨rfl, rfl⟩ := h2
    simp only [hstep]
    rw [Int.tdiv_eq_ediv hsize2 (by decide)]
  refine ⟨?_, ?_, by decide, hstep⟩
  · rw [e1, e2, hhash, hbucket]
  · rw [e1]

/-- C10, at the sample stage with two previous images: 2200000 and 2900000 bytes are both in
bucket 2. -/
theorem GetDependencies_same_bucket_witness :
    (patchSizeLoop sampleExt samplePrevImage samplePatchStage.gitArtifacts 0 []).1
        = (2200000, none)
      ∧ (patchSizeLoop sampleExt samplePrevImage2 samplePatchStage.gitArtifacts 0 []).1
        = (2900000, none)
      ∧ (GetDependencies sampleExt samplePatchStage samplePrevImage []).1
        = (GetDependencies sampleExt samplePatchStage samplePrevImage2 []).1 :=
  ⟨by decide, by decide,
    (GetDependencies_same_bucket sampleExt sampleExt samplePatchStage samplePatchStage
      samplePrevImage samplePrevImage2 [] [] 2200000 2900000 rfl (by decide) (by decide)
      (by decide) (by decide) (by decide)).1⟩

/-! ## The bucket index as a string -/

theorem toNat_ofNat_of_isValidChar (n : Nat) (hv : n.isValidChar) : (Char.ofNat n).toNat = n := by
  unfold Char.ofNat
  rw [dif_pos hv]
  unfold Char.ofNatAux Char.toNat
  simp only [UInt32.toNat, BitVec.toNat_ofNatLt]

theorem goStringOfInt64_injective_of_valid (a b : Int)
    (ha : (0 ≤ a ∧ a < 0xD800) ∨ (0xE000 ≤ a ∧ a ≤ 0x10FFFF))
    (hb : (0 ≤ b ∧ b < 0xD800) ∨ (0xE000 ≤ b ∧ b ≤ 0x10FFFF))
    (h : goStringOfInt64 a = goStringOfInt64 b) : a = b := by
  unfold goStringOfInt64 at h
  rw [if_pos ha, if_pos hb] at h
  have hc : Char.ofNat a.toNat = Char.ofNat b.toNat := by
    have := congrArg String.data h
    simpa [String.singleton] using this
  have hva : a.toNat.isValidChar := by
    unfold Nat.isValidChar; omega
  have hvb : b.toNat.isValidChar := by
    unfold Nat.isValidChar; omega
  have hn := congrArg Char.toNat hc
  rw [toNat_ofNat_of_isValidChar _ hva, toNat_ofNat_of_isValidChar _ hvb] at hn
  omega


/-- C11, evaluated: accumulated sizes of 55296 MiB and 55297 MiB lie in the different buckets
55296 and 55297, but `string(size / patchSizeStep)` is U+FFFD for both, since neither index is
a valid code point, and `GetDependencies` returns the same string for both runs. -/
theorem GetDependencies_bucket_collision :
    (patchSizeLoop sampleBigExt samplePrevImage3 samplePatchStage.gitArtifacts 0 []).1
        = (57982058496, none)
      ∧ (patchSizeLoop sampleBigExt samplePrevImage samplePatchStage.gitArtifacts 0 []).1
        = (57983107072, none)
      ∧ Int.tdiv 57982058496 patchSizeStep = 55296
      ∧ Int.tdiv 57983107072 patchSizeStep = 55297
      ∧ goStringOfInt64 (Int.tdiv 57982058496 patchSizeStep)
        = goStringOfInt64 (Int.tdiv 57983107072 patchSizeStep)
      ∧ (GetDependencies sampleBigExt samplePatchStage samplePrevImage3 []).1
        = (GetDependencies sampleBigExt samplePatchStage samplePrevImage []).1 := by
  decide

/-! ## The diff parser -/

theorem not_stringsHasStart_of_head_ne (s start1 start2 : String) (c1 c2 : Char)
    (r1 r2 : List Char) (h1 : start1.data = c1 :: r1) (h2 : start2.data = c2 :: r2)
    (hne : c1 ≠ c2) (hs : stringsHasStart s start1 = true) :
    stringsHasStart s start2 = false := by
  unfold stringsHasStart at hs ⊢
  rw [h1] at hs
  rw [h2]
  cases hd : s.data with
  | nil => rw [hd] at hs; simp [List.isPrefixOf] at hs
  | cons c cs =>
    rw [hd] at hs
    simp only [List.isPrefixOf, Bool.and_eq_true, beq_iff_eq] at hs
    have hc : c1 = c := hs.1
    subst hc
    simp only [List.isPrefixOf, Bool.and_eq_false_imp, beq_iff_eq]
    intro hc2
    exact absurd hc2.symm hne

/-- C12: a line that starts with "old mode ", received in the diff-header state, and a
following line that starts with "new mode " are both written to the output unchanged, in this
order (when the output writer accepts them); the state is `modifyFileModeDiff` after the first
line and `unrecognized` after the second, and `modifyFileModeDiff` is none of the states of a
new, deleted or modified file or of a diff body. -/
theorem handleDiffLine_mode_change (h : DiffExt) (p : diffParser) (line1 line2 : String)
    (hstate : p.state = parserState.diffBegin)
    (hold : stringsHasStart line1 "old mode " = true)
    (hnew : stringsHasStart line2 "new mode " = true)
    (hwrite1 : h.outWrite p.Out line1 = none)
    (hwrite2 : h.outWrite (p.Out ++ [line1]) line2 = none) :
    diffParser.handleDiffLine h p line1
        = (⟨parserState.modifyFileModeDiff, p.Out ++ [line1]⟩, none)
      ∧ diffParser.handleDiffLine h (diffParser.handleDiffLine h p line1).1 line2
        = (⟨parserState.unrecognized, p.Out ++ [line1, line2]⟩, none)
      ∧ parserState.modifyFileModeDiff ≠ parserState.modifyFileDiff
      ∧ parserState.modifyFileModeDiff ≠ parserState.newFileDiff
      ∧ parserState.modifyFileModeDiff ≠ parserState.deleteFileDiff
      ∧ parserState.modifyFileModeDiff ≠ parserState.diffBody := by
  have hd : stringsHasStart line1 "deleted file mode " = false :=
    not_stringsHasStart_of_head_ne line1 "old mode " "deleted file mode " 'o' 'd' _ _ rfl rfl
      (by decide) hold
  have hn : stringsHasStart line1 "new file mode " = false :=
    not_stringsHasStart_of_head_ne line1 "old mode " "new file mode " 'o' 'n' _ _ rfl rfl
      (by decide) hold
  have e1 : diffParser.handleDiffLine h p line1
      = (⟨parserState.modifyFileModeDiff, p.Out ++ [line1]⟩, none) := by
    unfold diffParser.handleDiffLine
    rw [hstate]
    simp [hd, hn, hold, diffParser.handleModifyFileModeDiff, diffParser.writeOutLine, hwrite1]
  refine ⟨e1, ?_, by decide, by decide, by decide, by decide⟩
  rw [e1]
  unfold diffParser.handleDiffLine
  simp [hnew, diffParser.writeOutLine, hwrite2]

/-- C12, at the mode change of the spec. -/
theorem handleDiffLine_mode_change_witness :
    diffParser.handleDiffLine sampleDiffExt
        (diffParser.handleDiffLine sampleDiffExt
          ⟨parserState.diffBegin, ["diff --git a/run.sh b/run.sh"]⟩ "old mode 100644").1
        "new mode 100755"
      = (⟨parserState.unrecognized,
          ["diff --git a/run.sh b/run.sh", "old mode 100644", "new mode 100755"]⟩, none) :=
  (handleDiffLine_mode_change sampleDiffExt
    ⟨parserState.diffBegin, ["diff --git a/run.sh b/run.sh"]⟩ "old mode 100644"
    "new mode 100755" rfl (by decide) (by decide) rfl rfl).2.1

theorem isPrefixOf_append_self (part after : List Char) :
    part.isPrefixOf (part ++ after) = true := by
  induction part with
  | nil => simp [List.isPrefixOf]
  | cons ch rest ih => simp [List.isPrefixOf, ih]

theorem containsChars_append (before part after : List Char) :
    containsChars (before ++ part ++ after) part = true := by
  induction before with
  | nil =>
    cases hp : part with
    | nil =>
      cases after with
      | nil => simp [containsChars]
      | cons ch rest => simp [containsChars, List.isPrefixOf]
    | cons ch rest =>
      have := isPrefixOf_append_self (ch :: rest) after
      simp only [List.nil_append, List.cons_append, containsChars, Bool.or_eq_true] at this ⊢
      exact Or.inl this
  | cons ch rest ih =>
    simp only [List.cons_append, containsChars, Bool.or_eq_true]
    exact Or.inr (by simpa using ih)

theorem containsText_of_eq (s before part after : String) (h : s = before ++ part ++ after) :
    containsText s part = true := by
  unfold containsText
  rw [h]
  simp only [String.data_append]
  exact containsChars_append before.data part.data after.data

/-- C13, as stated, fails: in state `modifyFileModeDiff` the line "--- a/run.sh", a tab,
"2018-01-01" is rejected with a message in which the tab is written as a backslash and a t, so
that the message does not contain the line. -/
theorem handleDiffLine_error_line_counterexample :
    stringsHasStart "--- a/run.sh\t2018-01-01" "new mode " = false
      ∧ diffParser.handleDiffLine sampleQuoteDiffExt
          ⟨parserState.modifyFileModeDiff, ["old mode 100644"]⟩ "--- a/run.sh\t2018-01-01"
        = (⟨parserState.modifyFileModeDiff, ["old mode 100644"]⟩,
            some ⟨"unexpected diff line in state `modifyFileModeDiff`: "
              ++ "\"--- a/run.sh\\t2018-01-01\""⟩)
      ∧ ¬ ∃ before after,
          "unexpected diff line in state `modifyFileModeDiff`: "
              ++ "\"--- a/run.sh\\t2018-01-01\""
            = before ++ "--- a/run.sh\t2018-01-01" ++ after :=
  ⟨by decide, by decide, fun ⟨before, after, h⟩ =>
    absurd (containsText_of_eq _ before _ after h) (by decide)⟩

/-- C13, amended: in state `modifyFileModeDiff`, a line that does not start with "new mode "
makes the parser return an error whose message contains the name of the state and the line as
formatted by the verb `%#v`; nothing is written and the state stays `modifyFileModeDiff`. -/
theorem handleDiffLine_modifyFileModeDiff_error (h : DiffExt) (p : diffParser) (line : String)
    (hstate : p.state = parserState.modifyFileModeDiff)
    (hline : stringsHasStart line "new mode " = false) :
    diffParser.handleDiffLine h p line
        = (p, some ⟨"unexpected diff line in state `modifyFileModeDiff`: " ++ h.goQuote line⟩)
      ∧ (∃ err, (diffParser.handleDiffLine h p line).2 = some err
          ∧ (∃ before after, err.msg = before ++ p.state.text ++ after)
          ∧ (∃ before after, err.msg = before ++ h.goQuote line ++ after))
      ∧ (diffParser.handleDiffLine h p line).1.Out = p.Out
      ∧ (diffParser.handleDiffLine h p line).1.state = parserState.modifyFileModeDiff := by
  have e : diffParser.handleDiffLine h p line
      = (p, some ⟨"unexpected diff line in state `modifyFileModeDiff`: "
          ++ h.goQuote line⟩) := by
    unfold diffParser.handleDiffLine
    rw [hstate]
    simp [hline, unexpectedDiffLine, hstate, parserState.text]
  refine ⟨e, ⟨_, by rw [e], ?_, ?_⟩, by rw [e], by rw [e]; exact hstate⟩
  · refine ⟨"unexpected diff line in state `", "`: " ++ h.goQuote line, ?_⟩
    have hlit : "unexpected diff line in state `modifyFileModeDiff`: "
        = "unexpected diff line in state `" ++ "modifyFileModeDiff" ++ "`: " := by decide
    rw [hstate]
    simp only [parserState.text]
    rw [hlit]
    simp only [String.append_assoc]
  · exact ⟨"unexpected diff line in state `modifyFileModeDiff`: ", "", by simp⟩

/-- C13 amended, at the line of the counterexample: the message holds the line with its tab
escaped. -/
theorem handleDiffLine_modifyFileModeDiff_error_witness :
    diffParser.handleDiffLine sampleQuoteDiffExt
        ⟨parserState.modifyFileModeDiff, ["old mode 100644"]⟩ "--- a/run.sh\t2018-01-01"
      = (⟨parserState.modifyFileModeDiff, ["old mode 100644"]⟩,
          some ⟨"unexpected diff line in state `modifyFileModeDiff`: "
            ++ sampleQuoteDiffExt.goQuote "--- a/run.sh\t2018-01-01"⟩) :=
  (handleDiffLine_modifyFileModeDiff_error sampleQuoteDiffExt
    ⟨parserState.modifyFileModeDiff, ["old mode 100644"]⟩ "--- a/run.sh\t2018-01-01" rfl
    (by decide)).1

/-! ## Preparing the image of a user stage with git patches -/

/-- C16, evaluated: when the base stage's `PrepareImage` succeeds, the method returns no error,
whatever the git-patch stage's `PrepareImage` returns; an error of the base stage is returned
as it is. -/
theorem PrepareImage_error (s : UserWithGAPatchStage) (c : Conveyor)
    (prevBuiltImage image : Image) :
    (UserWithGAPatchStage.PrepareImage s c prevBuiltImage image).2
      = (s.BaseStagePrepareImage c prevBuiltImage image).2 := by
  unfold UserWithGAPatchStage.PrepareImage
  rcases hb : s.BaseStagePrepareImage c prevBuiltImage image with ⟨image1, e1⟩
  cases e1 with
  | some err => rfl
  | none =>
    rcases hp : s.GAPatchStagePrepareImage c prevBuiltImage image1 with ⟨image2, e2⟩
    cases e2 <;> simp [hp]

/-- C16, at the failing input: the git-patch stage fails, and `PrepareImage` returns nil. -/
theorem PrepareImage_swallows_patch_error :
    (samplePatchFailure.BaseStagePrepareImage sampleConveyor samplePrevImage ⟨[]⟩).2 = none
      ∧ (samplePatchFailure.GAPatchStagePrepareImage sampleConveyor samplePrevImage
          (samplePatchFailure.BaseStagePrepareImage sampleConveyor samplePrevImage ⟨[]⟩).1).2
        = some ⟨"unable to create patch"⟩
      ∧ (UserWithGAPatchStage.PrepareImage samplePatchFailure sampleConveyor samplePrevImage
          ⟨[]⟩).2 = none := by
  decide

/-! ## Checksums of the Ansible builder -/

theorem stageTasks_name (b : Ansible) (st : UserStage) :
    b.stageTasks st.name = some (b.config.tasks st) := by
  cases st <;> rfl

theorem versionArgs_eq_nil (s g : String) : versionArgs s g = [] ↔ s = "" ∧ g = "" := by
  unfold versionArgs
  by_cases hs : s = "" <;> by_cases hg : g = "" <;> simp [hs, hg]

theorem versionArgs_ne_of_stage_ne (s1 s2 g : String) (h : s1 ≠ s2) :
    versionArgs s1 g ≠ versionArgs s2 g := by
  unfold versionArgs
  by_cases h1 : s1 = "" <;> by_cases h2 : s2 = "" <;> by_cases hg : g = "" <;>
    simp [h1, h2, hg] <;> simp_all

theorem versionArgs_ne_of_global_ne (s g1 g2 : String) (h : g1 ≠ g2) :
    versionArgs s g1 ≠ versionArgs s g2 := by
  unfold versionArgs
  by_cases h1 : g1 = "" <;> by_cases h2 : g2 = "" <;> by_cases hs : s = "" <;>
    simp [h1, h2, hs] <;> simp_all

theorem stageVersionChecksum_name (x : BuilderExt) (b : Ansible) (st : UserStage) :
    b.stageVersionChecksum x st.name
      = some (checksumOf x.Sha256Hash
          (versionArgs (b.config.stageCacheVersion st) b.config.CacheVersion)) := by
  have hf : b.configFieldValue (st.name ++ "CacheVersion")
      = some (FieldValue.text (b.config.stageCacheVersion st)) := by
    cases st <;> rfl
  have hg : b.configFieldValue "CacheVersion" = some (FieldValue.text b.config.CacheVersion) :=
    rfl
  unfold Ansible.stageVersionChecksum
  simp only [hf, hg]
  unfold versionArgs checksumOf
  by_cases hs : b.config.stageCacheVersion st = "" <;>
    by_cases hc : b.config.CacheVersion = "" <;> simp [hs, hc]

theorem taskChecksumArgs_length (x : BuilderExt) (tasks : List AnsibleTask) :
    ∀ (checksumArgs result : List String),
      taskChecksumArgs x tasks checksumArgs = some result →
        result.length = checksumArgs.length + tasks.length := by
  induction tasks with
  | nil =>
    intro checksumArgs result h
    simp only [taskChecksumArgs, Option.some.injEq] at h
    subst h
    simp
  | cons task rest ih =>
    intro checksumArgs result h
    unfold taskChecksumArgs at h
    split at h
    · exact absurd h (by simp)
    · split at h
      · exact absurd h (by simp)
      · have := ih _ _ h
        simp only [List.length_append, List.length_cons, List.length_nil] at this ⊢
        omega

theorem stageChecksum_name (x : BuilderExt) (b : Ansible) (st : UserStage) :
    b.stageChecksum x st.name
      = (taskChecksumArgs x (b.config.tasks st) []).map fun checksumArgs =>
          checksumOf x.Sha256Hash
            (checksumArgs ++ optArg (checksumOf x.Sha256Hash
              (versionArgs (b.config.stageCacheVersion st) b.config.CacheVersion))) := by
  unfold Ansible.stageChecksum
  rw [stageTasks_name, stageVersionChecksum_name]
  simp only
  cases h : taskChecksumArgs x (b.config.tasks st) [] with
  | none => rfl
  | some checksumArgs =>
    simp only [Option.map_some', optArg, checksumOf, Option.some.injEq]
    by_cases hv : checksumOf x.Sha256Hash
        (versionArgs (b.config.stageCacheVersion st) b.config.CacheVersion) = ""
    · simp only [checksumOf] at hv
      by_cases hc : checksumArgs = [] <;> simp [hv, hc]
    · simp only [checksumOf] at hv
      simp [hv]

theorem checksumOf_eq_imp (hash : List String → String) (hne : ∀ args, hash args ≠ "")
    (args1 args2 : List String)
    (hinj : args1 ≠ [] → args2 ≠ [] → hash args1 = hash args2 → args1 = args2)
    (h : checksumOf hash args1 = checksumOf hash args2) : args1 = args2 := by
  unfold checksumOf at h
  by_cases h1 : args1 = [] <;> by_cases h2 : args2 = []
  · rw [h1, h2]
  · rw [if_pos h1, if_neg h2] at h
    exact absurd h.symm (hne args2)
  · rw [if_neg h1, if_pos h2] at h
    exact absurd h (hne args1)
  · rw [if_neg h1, if_neg h2] at h
    exact hinj h1 h2 h

theorem optArg_injective (s1 s2 : String) (h : optArg s1 = optArg s2) : s1 = s2 := by
  unfold optArg at h
  by_cases h1 : s1 = "" <;> by_cases h2 : s2 = "" <;> simp_all

theorem optArg_eq_nil (s : String) : optArg s = [] ↔ s = "" := by
  unfold optArg
  by_cases h : s = "" <;> simp [h]

theorem checksumOf_eq_empty (hash : List String → String) (hne : ∀ args, hash args ≠ "")
    (args : List String) : checksumOf hash args = "" ↔ args = [] := by
  unfold checksumOf
  by_cases h : args = []
  · simp [h]
  · simp [h, hne args]

theorem sampleHash_ne_empty (args : List String) : sampleHash args ≠ "" := by
  intro h
  have h1 := congrArg String.data h
  simp [sampleHash] at h1

theorem Sha256Hash_ne_empty (sum256 : List String → Digest) (args : List String) :
    Sha256Hash sum256 args ≠ "" := by
  intro h
  have hd := congrArg String.data h
  have hsize := (sum256 args).size
  cases hb : (sum256 args).bytes with
  | nil => rw [hb] at hsize; simp at hsize
  | cons b rest =>
    simp only [Sha256Hash, hexText, hb, List.flatMap_cons] at hd
    simp at hd

theorem mem_hashedArgs_version (x : BuilderExt) (b : Ansible) (st : UserStage)
    (checksumArgs : List String)
    (hjs : taskChecksumArgs x (b.config.tasks st) [] = some checksumArgs)
    (hne : versionArgs (b.config.stageCacheVersion st) b.config.CacheVersion ≠ []) :
    versionArgs (b.config.stageCacheVersion st) b.config.CacheVersion ∈ hashedArgs x b st := by
  unfold hashedArgs
  rw [hjs]
  simp [List.filter_cons, hne]

theorem mem_hashedArgs_checksum (x : BuilderExt) (b : Ansible) (st : UserStage)
    (checksumArgs : List String)
    (hjs : taskChecksumArgs x (b.config.tasks st) [] = some checksumArgs)
    (hne : checksumArgs ++ optArg (checksumOf x.Sha256Hash
      (versionArgs (b.config.stageCacheVersion st) b.config.CacheVersion)) ≠ []) :
    checksumArgs ++ optArg (checksumOf x.Sha256Hash
        (versionArgs (b.config.stageCacheVersion st) b.config.CacheVersion))
      ∈ hashedArgs x b st := by
  unfold hashedArgs
  rw [hjs]
  rw [List.mem_filter]
  exact ⟨List.mem_cons_of_mem _ (List.mem_singleton.mpr rfl), decide_eq_true hne⟩

/-- C14: let the hash be `util.Sha256Hash`, the hexadecimal text of a 32-byte digest, and let
it have no collision among the argument lists that `stageChecksum` hands to it for the two
configurations. Then for two configurations that declare the same tasks for a user stage and
differ in exactly one of the stage's cache version and the global cache version,
`stageChecksum` returns different values for that stage (it returns for the second
configuration whenever it returns for the first). -/
theorem stageChecksum_cacheVersion_changes (x : BuilderExt) (sum256 : List String → Digest)
    (hhash : x.Sha256Hash = Sha256Hash sum256) (b1 b2 : Ansible) (st : UserStage)
    (hinj : ∀ args1 ∈ hashedArgs x b1 st ++ hashedArgs x b2 st,
      ∀ args2 ∈ hashedArgs x b1 st ++ hashedArgs x b2 st,
        x.Sha256Hash args1 = x.Sha256Hash args2 → args1 = args2)
    (htasks : b1.config.tasks st = b2.config.tasks st)
    (hcv : (b1.config.stageCacheVersion st ≠ b2.config.stageCacheVersion st
          ∧ b1.config.CacheVersion = b2.config.CacheVersion)
        ∨ (b1.config.stageCacheVersion st = b2.config.stageCacheVersion st
          ∧ b1.config.CacheVersion ≠ b2.config.CacheVersion))
    (checksum1 : String) (h1 : b1.stageChecksum x st.name = some checksum1) :
    ∃ checksum2, b2.stageChecksum x st.name = some checksum2 ∧ checksum2 ≠ checksum1 := by
  have hne : ∀ args, x.Sha256Hash args ≠ "" := by
    intro args
    rw [hhash]
    exact Sha256Hash_ne_empty sum256 args
  rw [stageChecksum_name] at h1 ⊢
  cases hjs : taskChecksumArgs x (b1.config.tasks st) [] with
  | none => rw [hjs] at h1; simp at h1
  | some checksumArgs =>
    have hjs2 : taskChecksumArgs x (b2.config.tasks st) [] = some checksumArgs := by
      rw [← htasks]; exact hjs
    rw [hjs] at h1
    rw [hjs2]
    simp only [Option.map_some', Option.some.injEq] at h1
    refine ⟨_, rfl, ?_⟩
    rw [← h1]
    intro heq
    have hargs := checksumOf_eq_imp x.Sha256Hash hne _ _
      (fun n2 n1 => hinj _
        (List.mem_append.mpr (Or.inr (mem_hashedArgs_checksum x b2 st checksumArgs hjs2 n2))) _
        (List.mem_append.mpr (Or.inl (mem_hashedArgs_checksum x b1 st checksumArgs hjs n1))))
      heq
    have hopt := optArg_injective _ _ (List.append_cancel_left hargs)
    have hv := checksumOf_eq_imp x.Sha256Hash hne _ _
      (fun n2 n1 => hinj _
        (List.mem_append.mpr (Or.inr (mem_hashedArgs_version x b2 st checksumArgs hjs2 n2))) _
        (List.mem_append.mpr (Or.inl (mem_hashedArgs_version x b1 st checksumArgs hjs n1))))
      hopt
    rcases hcv with ⟨hs, hg⟩ | ⟨hs, hg⟩
    · rw [hg] at hv
      exact versionArgs_ne_of_stage_ne _ _ _ hs hv.symm
    · rw [hs] at hv
      exact versionArgs_ne_of_global_ne _ _ _ hg hv.symm

/-- C14, at a sample install stage whose cache version changes from 1 to 2, with the sample
digest, which has no collision among the four argument lists hashed. -/
theorem stageChecksum_cacheVersion_changes_witness :
    (hashedArgs (sampleBuilderExt (Sha256Hash sampleDigest)) (sampleAnsible [⟨"x"⟩] "1" "")
        UserStage.Install).length = 2
      ∧ ∃ checksum2,
        Ansible.stageChecksum (sampleBuilderExt (Sha256Hash sampleDigest))
            (sampleAnsible [⟨"x"⟩] "2" "") UserStage.Install.name = some checksum2
          ∧ checksum2 ≠ Sha256Hash sampleDigest ["x", Sha256Hash sampleDigest ["1"]] :=
  ⟨by decide,
    stageChecksum_cacheVersion_changes (sampleBuilderExt (Sha256Hash sampleDigest)) sampleDigest
      rfl (sampleAnsible [⟨"x"⟩] "1" "") (sampleAnsible [⟨"x"⟩] "2" "") UserStage.Install
      (by decide) rfl (Or.inl ⟨by decide, rfl⟩)
      (Sha256Hash sampleDigest ["x", Sha256Hash sampleDigest ["1"]]) (by decide)⟩

/-! ## Empty stages of the Ansible builder -/

theorem stage_eq_iff_no_tasks (x : BuilderExt) (b : Ansible) (st : UserStage)
    (container : Container) :
    b.stage x st.name container = some (container, none) ↔ b.config.tasks st = [] := by
  unfold Ansible.stage
  rw [stageTasks_name]
  simp only
  by_cases ht : b.config.tasks st = []
  · simp [ht]
  · have hlen : ¬ (b.config.tasks st).length = 0 := by
      simpa [List.length_eq_zero] using ht
    simp only [hlen, if_false, ht, iff_false]
    split
    · simp
    · split
      · simp
      · split
        · simp
        · split
          · simp
          · simp only [Option.some.injEq, Prod.mk.injEq, and_true]
            intro h
            have := congrArg (fun c : Container => c.Env.length) h
            simp [Container.AddRunCommands, Container.AddVolumeFrom, Container.AddVolume,
              Container.AddEnv] at this

/-- C17, as stated, fails: for a hash that never returns the empty string, an install stage
without tasks but with the global cache version "1" is not reported empty, although applying
it returns nil and leaves the container as it was. -/
theorem isEmptyStage_counterexample :
    (∀ args, (sampleBuilderExt sampleHash).Sha256Hash args ≠ "")
      ∧ Ansible.stageTasks (sampleAnsible [] "" "1") UserStage.Install.name = some []
      ∧ Ansible.stage (sampleBuilderExt sampleHash) (sampleAnsible [] "" "1")
          UserStage.Install.name sampleContainer = some (sampleContainer, none)
      ∧ Ansible.isEmptyStage (sampleBuilderExt sampleHash) (sampleAnsible [] "" "1")
          UserStage.Install.name = some false :=
  ⟨sampleHash_ne_empty, by decide, by decide, by decide⟩

/-- C17, amended: if the hash never returns the empty string, `isEmptyStage` returns true for
a user stage exactly when the stage declares no tasks and both its cache version and the
global cache version are empty; applying the stage returns nil and leaves the container as it
was exactly when the stage declares no tasks; so the application of a stage that is reported
empty is a no-op. -/
theorem isEmptyStage_iff (x : BuilderExt) (hne : ∀ args, x.Sha256Hash args ≠ "") (b : Ansible)
    (st : UserStage) :
    (b.isEmptyStage x st.name = some true
        ↔ b.config.tasks st = [] ∧ b.config.stageCacheVersion st = ""
          ∧ b.config.CacheVersion = "")
      ∧ (∀ container,
          b.stage x st.name container = some (container, none) ↔ b.config.tasks st = [])
      ∧ (b.isEmptyStage x st.name = some true →
          ∀ container, b.stage x st.name container = some (container, none)) := by
  have hiff : b.isEmptyStage x st.name = some true
      ↔ b.config.tasks st = [] ∧ b.config.stageCacheVersion st = ""
        ∧ b.config.CacheVersion = "" := by
    unfold Ansible.isEmptyStage
    rw [stageChecksum_name]
    cases hjs : taskChecksumArgs x (b.config.tasks st) [] with
    | none =>
      constructor
      · intro h
        simp at h
      · rintro ⟨ht, -, -⟩
        rw [ht] at hjs
        simp [taskChecksumArgs] at hjs
    | some checksumArgs =>
      have hlen := taskChecksumArgs_length x _ _ _ hjs
      simp only [List.length_nil, Nat.zero_add] at hlen
      have hnil : checksumArgs = [] ↔ b.config.tasks st = [] := by
        rw [← List.length_eq_zero, hlen, List.length_eq_zero]
      simp only [Option.map_some', Option.some.injEq, decide_eq_true_eq]
      rw [checksumOf_eq_empty x.Sha256Hash hne, List.append_eq_nil, optArg_eq_nil,
        checksumOf_eq_empty x.Sha256Hash hne, versionArgs_eq_nil, hnil]
  refine ⟨hiff, fun container => stage_eq_iff_no_tasks x b st container, ?_⟩
  intro h container
  exact (stage_eq_iff_no_tasks x b st container).mpr (hiff.mp h).1

/-- C17 amended, at a sample install stage without tasks and without cache versions. -/
theorem isEmptyStage_iff_witness :
    Ansible.isEmptyStage (sampleBuilderExt sampleHash) (sampleAnsible [] "" "")
        UserStage.Install.name = some true
      ∧ Ansible.stage (sampleBuilderExt sampleHash) (sampleAnsible [] "" "")
          UserStage.Install.name sampleContainer = some (sampleContainer, none) :=
  ⟨by decide,
    (isEmptyStage_iff (sampleBuilderExt sampleHash) sampleHash_ne_empty (sampleAnsible [] "" "")
      UserStage.Install).2.2 (by decide) sampleContainer⟩

/-! ## The remote-repository cache -/

theorem CacheStep.refl (x : Ext) (c : Conveyor) : CacheStep x c [] c where
  notCached := fun repo h => absurd h (List.not_mem_nil _)
  kept := fun _ _ h => h
  stored := fun repo h => absurd h (List.not_mem_nil _)
  fresh := fun name repo h1 h2 => by rw [h1] at h2; exact absurd h2 (by simp)
  noRepeat := fun before after repo h => by simp at h
  atMostOne := fun name => by simp

theorem CacheStep.trans {x : Ext} {c c1 c2 : Conveyor} {ev1 ev2 : List Event}
    (s1 : CacheStep x c ev1 c1) (s2 : CacheStep x c1 ev2 c2) :
    CacheStep x c (ev1 ++ ev2) c2 where
  notCached := by
    intro repo h
    rcases List.mem_append.mp h with h | h
    · exact s1.notCached repo h
    · have h2 := s2.notCached repo h
      cases hc : c.remoteGitRepos.lookup repo.Name with
      | none => rfl
      | some r =>
        rw [s1.kept _ _ hc] at h2
        exact absurd h2 (by simp)
  kept := fun name repo h => s2.kept _ _ (s1.kept _ _ h)
  stored := by
    intro repo h hok
    rcases List.mem_append.mp h with h | h
    · exact s2.kept _ _ (s1.stored repo h hok)
    · exact s2.stored repo h hok
  fresh := by
    intro name repo h2 h0
    cases h1 : c1.remoteGitRepos.lookup name with
    | none =>
      obtain ⟨hm, hok, hn⟩ := s2.fresh name repo h2 h1
      exact ⟨List.mem_append.mpr (Or.inr hm), hok, hn⟩
    | some r =>
      have hr : c2.remoteGitRepos.lookup name = some r := s2.kept _ _ h1
      rw [h2] at hr
      have hrr : repo = r := Option.some.inj hr
      subst hrr
      obtain ⟨hm, hok, hn⟩ := s1.fresh name repo h1 h0
      exact ⟨List.mem_append.mpr (Or.inl hm), hok, hn⟩
  noRepeat := by
    intro before after repo hsplit hok repo2 hmem
    rcases List.append_eq_append_iff.mp hsplit with ⟨a, ha1, ha2⟩ | ⟨b, hb1, hb2⟩
    · -- the clone lies in `ev2`
      exact s2.noRepeat a after repo ha2 hok repo2 hmem
    · cases b with
      | nil =>
        simp only [List.nil_append] at hb2
        exact s2.noRepeat [] after repo (by rw [hb2]; rfl) hok repo2 hmem
      | cons e rest =>
        simp only [List.cons_append, List.cons.injEq] at hb2
        obtain ⟨he, hafter⟩ := hb2
        subst he
        rw [hafter] at hmem
        rcases List.mem_append.mp hmem with hm | hm
        · exact s1.noRepeat before rest repo hb1 hok repo2 hm
        · intro hname
          have hin : Event.cloneAndFetch repo ∈ ev1 := by
            rw [hb1]; exact List.mem_append.mpr (Or.inr (List.mem_cons_self _ _))
          have hst := s1.stored repo hin hok
          have hnc := s2.notCached repo2 hm
          rw [hname, hst] at hnc
          exact absurd hnc (by simp)
  atMostOne := by
    intro name
    rw [List.filter_append, List.length_append]
    have h1 := s1.atMostOne name
    have h2 := s2.atMostOne name
    by_cases hz : (ev1.filter (isSuccessfulCloneOf x name)).length = 0
    · omega
    · have hpos : 0 < (ev1.filter (isSuccessfulCloneOf x name)).length := Nat.pos_of_ne_zero hz
      obtain ⟨e, he⟩ := List.exists_mem_of_length_pos hpos
      obtain ⟨hmem, hsucc⟩ := List.mem_filter.mp he
      have hnil : ev2.filter (isSuccessfulCloneOf x name) = [] := by
        rw [List.filter_eq_nil_iff]
        intro e2 he2 hs2
        cases e with
        | cloneAndFetch repo =>
          cases e2 with
          | cloneAndFetch repo2 =>
            simp only [isSuccessfulCloneOf, Bool.and_eq_true, decide_eq_true_eq,
              Option.isNone_iff_eq_none] at hsucc hs2
            have hst := s1.stored repo hmem hsucc.2
            have hnc := s2.notCached repo2 he2
            rw [hs2.1, ← hsucc.1, hst] at hnc
            exact absurd hnc (by simp)
          | warning _ => simp [isSuccessfulCloneOf] at hs2
          | printed _ => simp [isSuccessfulCloneOf] at hs2
          | isCommitExists _ _ => simp [isSuccessfulCloneOf] at hs2
          | patchSize _ _ => simp [isSuccessfulCloneOf] at hs2
        | warning _ => simp [isSuccessfulCloneOf] at hsucc
        | printed _ => simp [isSuccessfulCloneOf] at hsucc
        | isCommitExists _ _ => simp [isSuccessfulCloneOf] at hsucc
        | patchSize _ _ => simp [isSuccessfulCloneOf] at hsucc
      rw [hnil]
      simp only [List.length_nil]
      omega

theorem lookup_cons_of_ne (name key : String) (repo : Remote) (repos : List (String × Remote))
    (h : name ≠ key) : List.lookup name ((key, repo) :: repos) = List.lookup name repos := by
  have hb : (name == key) = false := by simpa using h
  simp [List.lookup, hb]

theorem CacheStep.cloneFailed (x : Ext) (c : Conveyor) (repo : Remote) (err : GoError)
    (hc : c.remoteGitRepos.lookup repo.Name = none) (hfail : x.CloneAndFetch repo = some err) :
    CacheStep x c [Event.cloneAndFetch repo] c where
  notCached := by
    intro repo1 h
    simp only [List.mem_singleton, Event.cloneAndFetch.injEq] at h
    rw [h]; exact hc
  kept := fun _ _ h => h
  stored := by
    intro repo1 h hok
    simp only [List.mem_singleton, Event.cloneAndFetch.injEq] at h
    rw [h, hfail] at hok
    exact absurd hok (by simp)
  fresh := fun name repo1 h1 h2 => by rw [h1] at h2; exact absurd h2 (by simp)
  noRepeat := by
    intro before after repo1 h hok repo2 hmem
    cases before with
    | nil =>
      simp only [List.nil_append, List.cons.injEq] at h
      rw [← h.2] at hmem
      exact absurd hmem (List.not_mem_nil _)
    | cons e rest =>
      simp only [List.cons_append, List.cons.injEq] at h
      have := congrArg List.length h.2
      simp only [List.length_nil, List.length_append, List.length_cons] at this
      omega
  atMostOne := by
    intro name
    simp [List.filter_cons, isSuccessfulCloneOf, hfail]

theorem CacheStep.cloned (x : Ext) (c : Conveyor) (repo : Remote)
    (hc : c.remoteGitRepos.lookup repo.Name = none) (hok : x.CloneAndFetch repo = none) :
    CacheStep x c [Event.cloneAndFetch repo]
      { c with remoteGitRepos := (repo.Name, repo) :: c.remoteGitRepos } where
  notCached := by
    intro repo1 h
    simp only [List.mem_singleton, Event.cloneAndFetch.injEq] at h
    rw [h]; exact hc
  kept := by
    intro name repo1 h
    have hne : name ≠ repo.Name := by
      intro he
      rw [he, hc] at h
      exact absurd h (by simp)
    show List.lookup name ((repo.Name, repo) :: c.remoteGitRepos) = some repo1
    rw [lookup_cons_of_ne _ _ _ _ hne]
    exact h
  stored := by
    intro repo1 h _
    simp only [List.mem_singleton, Event.cloneAndFetch.injEq] at h
    rw [h]
    exact List.lookup_cons_self
  fresh := by
    intro name repo1 h1 h0
    have h2 : List.lookup name ((repo.Name, repo) :: c.remoteGitRepos) = some repo1 := h1
    by_cases hne : name = repo.Name
    · subst hne
      rw [List.lookup_cons_self] at h2
      have hr : repo = repo1 := Option.some.inj h2
      subst hr
      exact ⟨List.mem_singleton.mpr rfl, hok, rfl⟩
    · rw [lookup_cons_of_ne _ _ _ _ hne, h0] at h2
      exact absurd h2 (by simp)
  noRepeat := by
    intro before after repo1 h hok repo2 hmem
    cases before with
    | nil =>
      simp only [List.nil_append, List.cons.injEq] at h
      rw [← h.2] at hmem
      exact absurd hmem (List.not_mem_nil _)
    | cons e rest =>
      simp only [List.cons_append, List.cons.injEq] at h
      have := congrArg List.length h.2
      simp only [List.length_nil, List.length_append, List.length_cons] at this
      omega
  atMostOne := by
    intro name
    by_cases h : isSuccessfulCloneOf x name (Event.cloneAndFetch repo) = true
    · simp [List.filter_cons, h]
    · simp [List.filter_cons, h]

theorem remoteGitArtifactsLoop_cacheStep (x : Ext) (dimgName : String)
    (remotes : List GitRemote) :
    ∀ (c : Conveyor) (ev : List Event) (gitArtifacts : List GitArtifact),
      ∃ evNew,
        (remoteGitArtifactsLoop x dimgName remotes c ev gitArtifacts).2.2 = ev ++ evNew
          ∧ CacheStep x c evNew
              (remoteGitArtifactsLoop x dimgName remotes c ev gitArtifacts).2.1 := by
  induction remotes with
  | nil =>
    intro c ev gitArtifacts
    exact ⟨[], by simp [remoteGitArtifactsLoop], CacheStep.refl x c⟩
  | cons remoteGAConfig rest ih =>
    intro c ev gitArtifacts
    unfold remoteGitArtifactsLoop
    cases hl : c.remoteGitRepos.lookup remoteGAConfig.Name with
    | some remoteGitRepo => exact ih c ev _
    | none =>
      simp only
      rcases hp : getRemoteGitRepoClonePath x remoteGAConfig c with ⟨clonePath, e⟩
      cases e with
      | some err => exact ⟨[], by simp, CacheStep.refl x c⟩
      | none =>
        simp only
        cases hcl : x.CloneAndFetch
            { Name := remoteGAConfig.Name, Url := remoteGAConfig.Url, ClonePath := clonePath } with
        | some err =>
          exact ⟨[Event.cloneAndFetch ⟨remoteGAConfig.Name, remoteGAConfig.Url, clonePath⟩], rfl,
            CacheStep.cloneFailed x c ⟨remoteGAConfig.Name, remoteGAConfig.Url, clonePath⟩ err hl
              hcl⟩
        | none =>
          simp only
          obtain ⟨evNew, hev, hstep⟩ := ih
            { c with remoteGitRepos :=
                (remoteGAConfig.Name, ⟨remoteGAConfig.Name, remoteGAConfig.Url, clonePath⟩)
                  :: c.remoteGitRepos }
            (ev ++ [Event.cloneAndFetch ⟨remoteGAConfig.Name, remoteGAConfig.Url, clonePath⟩])
            (gitArtifacts ++ [gitRemoteArtifactInit x remoteGAConfig
              ⟨remoteGAConfig.Name, remoteGAConfig.Url, clonePath⟩ dimgName
              { c with remoteGitRepos :=
                (remoteGAConfig.Name, ⟨remoteGAConfig.Name, remoteGAConfig.Url, clonePath⟩)
                  :: c.remoteGitRepos }])
          refine ⟨Event.cloneAndFetch ⟨remoteGAConfig.Name, remoteGAConfig.Url, clonePath⟩
            :: evNew, ?_, ?_⟩
          · rw [hev]; simp
          · exact CacheStep.trans
              (CacheStep.cloned x c ⟨remoteGAConfig.Name, remoteGAConfig.Url, clonePath⟩ hl hcl)
              hstep

theorem generateGitArtifacts_cacheStep (x : Ext) (dimgBaseConfig : DimgBase) (c : Conveyor)
    (ev : List Event) :
    ∃ evNew,
      (generateGitArtifacts x dimgBaseConfig c ev).2.2 = ev ++ evNew
        ∧ CacheStep x c evNew (generateGitArtifacts x dimgBaseConfig c ev).2.1 := by
  unfold generateGitArtifacts
  simp only
  obtain ⟨evNew, hev, hstep⟩ := remoteGitArtifactsLoop_cacheStep x dimgBaseConfig.Name
    dimgBaseConfig.Git.Remote c ev
    (dimgBaseConfig.Git.Local.map fun localGAConfig =>
      gitLocalArtifactInit x localGAConfig
        (if dimgBaseConfig.Git.Local.length ≠ 0 then
          some { Name := "own", Path := c.projectDir, GitDir := x.pathJoin [c.projectDir, ".git"] }
        else none) dimgBaseConfig.Name c)
  refine ⟨evNew, ?_, ?_⟩
  · split <;> simp_all
  · split <;> simp_all

theorem generateGitArtifactsCalls_cacheStep (x : Ext) (configs : List DimgBase) :
    ∀ (c : Conveyor) (ev : List Event),
      ∃ evNew,
        (generateGitArtifactsCalls x configs c ev).2 = ev ++ evNew
          ∧ CacheStep x c evNew (generateGitArtifactsCalls x configs c ev).1 := by
  induction configs with
  | nil =>
    intro c ev
    exact ⟨[], by simp [generateGitArtifactsCalls], CacheStep.refl x c⟩
  | cons dimgBaseConfig rest ih =>
    intro c ev
    unfold generateGitArtifactsCalls
    obtain ⟨ev1, hev1, hstep1⟩ := generateGitArtifacts_cacheStep x dimgBaseConfig c ev
    obtain ⟨ev2, hev2, hstep2⟩ := ih (generateGitArtifacts x dimgBaseConfig c ev).2.1
      (generateGitArtifacts x dimgBaseConfig c ev).2.2
    refine ⟨ev1 ++ ev2, ?_, CacheStep.trans hstep1 hstep2⟩
    rw [hev2, hev1, List.append_assoc]

/-- C15: across any sequence of `generateGitArtifacts` calls on one conveyor, no repository
whose name is in the remote-repository cache is cloned, neither one cached at the start nor one
stored by an earlier clone; cached handles stay; a clone that succeeds is stored under its name
and is the only source of new handles; for every name at most one clone succeeds. In one pass
of the loop, a cached name binds the artifact to the cached handle without a clone and without
a change of the cache, a failing clone-path derivation or clone returns its error and leaves
the cache as it was, and a clone that succeeds is stored before the loop goes on. -/
theorem generateGitArtifacts_remote_cache (x : Ext) (configs : List DimgBase) (c : Conveyor) :
    (∀ repo, Event.cloneAndFetch repo ∈ (generateGitArtifactsCalls x configs c []).2 →
        c.remoteGitRepos.lookup repo.Name = none)
      ∧ (∀ name repo, c.remoteGitRepos.lookup name = some repo →
          (generateGitArtifactsCalls x configs c []).1.remoteGitRepos.lookup name = some repo)
      ∧ (∀ repo, Event.cloneAndFetch repo ∈ (generateGitArtifactsCalls x configs c []).2 →
          x.CloneAndFetch repo = none →
          (generateGitArtifactsCalls x configs c []).1.remoteGitRepos.lookup repo.Name
            = some repo)
      ∧ (∀ name repo,
          (generateGitArtifactsCalls x configs c []).1.remoteGitRepos.lookup name = some repo →
          c.remoteGitRepos.lookup name = none →
          Event.cloneAndFetch repo ∈ (generateGitArtifactsCalls x configs c []).2
            ∧ x.CloneAndFetch repo = none ∧ repo.Name = name)
      ∧ (∀ before after repo,
          (generateGitArtifactsCalls x configs c []).2
            = before ++ Event.cloneAndFetch repo :: after →
          x.CloneAndFetch repo = none →
          ∀ repo2, Event.cloneAndFetch repo2 ∈ after → repo2.Name ≠ repo.Name)
      ∧ (∀ name,
          ((generateGitArtifactsCalls x configs c []).2.filter
            (isSuccessfulCloneOf x name)).length ≤ 1)
      ∧ (∀ dimgName remoteGAConfig rest c1 ev gitArtifacts repo,
          c1.remoteGitRepos.lookup remoteGAConfig.Name = some repo →
          remoteGitArtifactsLoop x dimgName (remoteGAConfig :: rest) c1 ev gitArtifacts
              = remoteGitArtifactsLoop x dimgName rest c1 ev
                  (gitArtifacts ++ [gitRemoteArtifactInit x remoteGAConfig repo dimgName c1])
            ∧ (gitRemoteArtifactInit x remoteGAConfig repo dimgName c1).GitRepoInterface
              = GitRepo.remoteRepo repo)
      ∧ (∀ dimgName remoteGAConfig rest c1 ev gitArtifacts err,
          c1.remoteGitRepos.lookup remoteGAConfig.Name = none →
          (getRemoteGitRepoClonePath x remoteGAConfig c1).2 = some err →
          remoteGitArtifactsLoop x dimgName (remoteGAConfig :: rest) c1 ev gitArtifacts
            = (([], some err), c1, ev))
      ∧ (∀ dimgName remoteGAConfig rest c1 ev gitArtifacts clonePath err,
          c1.remoteGitRepos.lookup remoteGAConfig.Name = none →
          getRemoteGitRepoClonePath x remoteGAConfig c1 = (clonePath, none) →
          x.CloneAndFetch ⟨remoteGAConfig.Name, remoteGAConfig.Url, clonePath⟩ = some err →
          remoteGitArtifactsLoop x dimgName (remoteGAConfig :: rest) c1 ev gitArtifacts
            = (([], some err), c1,
                ev ++ [Event.cloneAndFetch
                  ⟨remoteGAConfig.Name, remoteGAConfig.Url, clonePath⟩]))
      ∧ (∀ dimgName remoteGAConfig rest c1 ev gitArtifacts clonePath,
          c1.remoteGitRepos.lookup remoteGAConfig.Name = none →
          getRemoteGitRepoClonePath x remoteGAConfig c1 = (clonePath, none) →
          x.CloneAndFetch ⟨remoteGAConfig.Name, remoteGAConfig.Url, clonePath⟩ = none →
          remoteGitArtifactsLoop x dimgName (remoteGAConfig :: rest) c1 ev gitArtifacts
            = remoteGitArtifactsLoop x dimgName rest
                { c1 with remoteGitRepos :=
                    (remoteGAConfig.Name, ⟨remoteGAConfig.Name, remoteGAConfig.Url, clonePath⟩)
                      :: c1.remoteGitRepos }
                (ev ++ [Event.cloneAndFetch
                  ⟨remoteGAConfig.Name, remoteGAConfig.Url, clonePath⟩])
                (gitArtifacts ++ [gitRemoteArtifactInit x remoteGAConfig
                  ⟨remoteGAConfig.Name, remoteGAConfig.Url, clonePath⟩ dimgName
                  { c1 with remoteGitRepos :=
                    (remoteGAConfig.Name, ⟨remoteGAConfig.Name, remoteGAConfig.Url, clonePath⟩)
                      :: c1.remoteGitRepos }])) := by
  obtain ⟨evNew, hev, hstep⟩ := generateGitArtifactsCalls_cacheStep x configs c []
  rw [List.nil_append] at hev
  rw [← hev] at hstep
  refine ⟨hstep.notCached, hstep.kept, hstep.stored, hstep.fresh, hstep.noRepeat,
    hstep.atMostOne, ?_, ?_, ?_, ?_⟩
  · intro dimgName remoteGAConfig rest c1 ev gitArtifacts repo hl
    refine ⟨?_, rfl⟩
    rw [remoteGitArtifactsLoop, hl]
  · intro dimgName remoteGAConfig rest c1 ev gitArtifacts err hl hp
    rw [remoteGitArtifactsLoop, hl]
    simp only
    rcases hq : getRemoteGitRepoClonePath x remoteGAConfig c1 with ⟨clonePath, e⟩
    rw [hq] at hp
    simp only at hp
    subst hp
    rfl
  · intro dimgName remoteGAConfig rest c1 ev gitArtifacts clonePath err hl hp hcl
    rw [remoteGitArtifactsLoop, hl]
    simp only [hp, hcl]
  · intro dimgName remoteGAConfig rest c1 ev gitArtifacts clonePath hl hp hcl
    rw [remoteGitArtifactsLoop, hl]
    simp only [hp, hcl]

/-- C15, at a sample run: two images use the remote repository lib, which is cloned once, by
the first call, and is in the cache afterwards. -/
theorem generateGitArtifacts_remote_cache_witness :
    (generateGitArtifactsCalls sampleExt [sampleLibBase "web", sampleLibBase "worker"]
        sampleConveyor []).2
        = [Event.cloneAndFetch
            ⟨"lib", "https://example.com/org/lib.git", "/b/remote_git_repo/1/lib/https"⟩]
      ∧ (generateGitArtifactsCalls sampleExt [sampleLibBase "web", sampleLibBase "worker"]
          sampleConveyor []).1.remoteGitRepos
        = [("lib", ⟨"lib", "https://example.com/org/lib.git",
            "/b/remote_git_repo/1/lib/https"⟩)]
      ∧ ((generateGitArtifactsCalls sampleExt [sampleLibBase "web", sampleLibBase "worker"]
          sampleConveyor []).2.filter (isSuccessfulCloneOf sampleExt "lib")).length ≤ 1 :=
  ⟨by decide, by decide,
    (generateGitArtifacts_remote_cache sampleExt [sampleLibBase "web", sampleLibBase "worker"]
      sampleConveyor).2.2.2.2.2.1 "lib"⟩

end Dapp
